import Mathlib

/-!
Verification of the Recipe-Bot grocery prediction/feedback/learning core.

Shallow embedding of the Python source into Lean:
* machine times are naive local timestamps in integer microseconds;
* Python floats are modelled by exact rationals (ℚ); `round(x, n)` is
  modelled as exact round-half-to-even at `n` decimal digits (Python uses
  round-half-even on the binary double; on the concrete inputs appearing in
  the theorems below the two agree);
* Python dicts that are built by insertion are modelled as insertion-ordered
  association lists; `sorted(..., reverse=True)` is modelled by a stable
  descending insertion sort;
* fallible code paths return `Option`/`Except`.
-/

namespace RecipeBot

/-! ### Shared arithmetic helpers -/

/-- Round a rational half-to-even to an integer (the rounding mode of
Python's builtin `round`). -/
def roundHalfEven (q : ℚ) : ℤ :=
  if q - ⌊q⌋ < 1/2 then ⌊q⌋
  else if 1/2 < q - ⌊q⌋ then ⌊q⌋ + 1
  else if ⌊q⌋ % 2 = 0 then ⌊q⌋ else ⌊q⌋ + 1

/-- Python `round(x, 2)` on exact values. -/
def round2 (q : ℚ) : ℚ := (roundHalfEven (q * 100) : ℚ) / 100

/-- Python `round(x, 1)` on exact values. -/
def round1 (q : ℚ) : ℚ := (roundHalfEven (q * 10) : ℚ) / 10

/-! ### Python string primitives

Executable models of `str.lower()` and `str.strip()` (ASCII fragment; the
item names appearing here are ASCII). -/

/-- `str.lower()` on one character. -/
def charLower (c : Char) : Char :=
  if 'A' ≤ c && c ≤ 'Z' then Char.ofNat (c.toNat + 32) else c

/-- Python's default `str.strip()` whitespace set. -/
def isPyWhitespace (c : Char) : Bool :=
  c == ' ' || c == '\t' || c == '\n' || c == '\r' || c == '\x0B' || c == '\x0C'

/-- `str.strip()`: drop whitespace from both ends. -/
def stripChars (l : List Char) : List Char :=
  ((l.dropWhile isPyWhitespace).reverse.dropWhile isPyWhitespace).reverse

/-- `s.strip()` on strings. -/
def pyStrip (s : String) : String := ⟨stripChars s.data⟩

/-- `s.lower()` on strings. -/
def pyLower (s : String) : String := ⟨s.data.map charLower⟩

/-! ### Accuracy scorer — `src/handlers/feedback_handler.py`, `calculate_accuracy` -/

/-- `item.lower().strip()`: lowercase, then trim surrounding whitespace. -/
def normalizeItem (s : String) : String := pyStrip (pyLower s)

/-- The dictionary returned by `calculate_accuracy`; it always carries
exactly these four keys. -/
structure AccuracyResult where
  match_percentage : ℚ
  matched_items : List String
  missing_items : List String
  extra_items : List String
deriving Repr, DecidableEq

/-- The `except` branch of `calculate_accuracy` (lines 79-84). -/
def defaultAccuracyResult : AccuracyResult :=
  { match_percentage := 0
    matched_items := []
    missing_items := []
    extra_items := [] }

/-- Body of the `try` block of `calculate_accuracy` (lines 37-73), for inputs
whose elements are all strings.  The three Python `for`-loops that grow a
list with `append` are translated as left folds. -/
def calculateAccuracyStr (predicted_items actual_items : List String) : AccuracyResult :=
  let actual_normalized := actual_items.map normalizeItem
  let predicted_normalized := predicted_items.map normalizeItem
  let matched_items := predicted_items.foldl
    (fun acc p => if actual_normalized.contains (normalizeItem p) then acc ++ [p] else acc) []
  let missing_items := predicted_items.foldl
    (fun acc p => if actual_normalized.contains (normalizeItem p) then acc else acc ++ [p]) []
  let extra_items := actual_items.foldl
    (fun acc a => if predicted_normalized.contains (normalizeItem a) then acc else acc ++ [a]) []
  let match_percentage : ℚ :=
    if 0 < predicted_items.length then
      ((matched_items.length : ℚ) / (predicted_items.length : ℚ)) * 100
    else 0
  { match_percentage := round2 match_percentage
    matched_items := matched_items
    missing_items := missing_items
    extra_items := extra_items }

/-- A Python value appearing in the item lists: either a string or some
non-string value (on which `.lower()` raises `AttributeError`). -/
inductive PyVal where
  | str (s : String)
  | nonstr
deriving Repr, DecidableEq

/-- Extract the strings of a list of Python values; `none` when some element
is not a string (the normalizing comprehension raises there). -/
def asStrings : List PyVal → Option (List String)
  | [] => some []
  | .str s :: rest => (asStrings rest).map (fun l => s :: l)
  | .nonstr :: _ => none

/-- `calculate_accuracy` (lines 12-84).  The two normalizing comprehensions
(lines 37-38) run before anything else inside the `try`; the first non-string
element raises and control moves to the `except` branch, which returns the
default result. -/
def calculate_accuracy (predicted_items actual_items : List PyVal) : AccuracyResult :=
  match asStrings predicted_items, asStrings actual_items with
  | some ps, some as_ => calculateAccuracyStr ps as_
  | _, _ => defaultAccuracyResult

/-! ### Lemmas about the accuracy scorer -/

theorem foldl_append_eq_filter (p : α → Bool) (l acc : List α) :
    l.foldl (fun acc x => if p x then acc ++ [x] else acc) acc = acc ++ l.filter p := by
  induction l generalizing acc with
  | nil => simp
  | cons x xs ih =>
    by_cases h : p x <;> simp [List.filter_cons, h, ih]

theorem foldl_append_eq_filter_not (p : α → Bool) (l acc : List α) :
    l.foldl (fun acc x => if p x then acc else acc ++ [x]) acc = acc ++ l.filter (fun x => !p x) := by
  induction l generalizing acc with
  | nil => simp
  | cons x xs ih =>
    by_cases h : p x <;> simp [List.filter_cons, h, ih]

theorem asStrings_map_str (l : List String) : asStrings (l.map PyVal.str) = some l := by
  induction l with
  | nil => rfl
  | cons x xs ih => simp [asStrings, ih]

theorem asStrings_none_of_mem_nonstr {l : List PyVal} (h : PyVal.nonstr ∈ l) :
    asStrings l = none := by
  induction l with
  | nil => cases h
  | cons x xs ih =>
    cases x with
    | nonstr => rfl
    | str s =>
      have hmem : PyVal.nonstr ∈ xs := by simpa using h
      simp [asStrings, ih hmem]

/-- C1 (amended): on all-string inputs, the accuracy scorer returns
`match_percentage = round2 (100 × |matched| / |predicted|)` (Python rounds the
percentage to two decimals), `0` when the predicted list is empty; matched and
missing preserve the predicted-items order in original casing, extra preserves
the actual-items order in original casing, with membership decided on
lowercased whitespace-trimmed names. -/
theorem calculate_accuracy_characterization (predicted actual : List String) :
    (calculate_accuracy (predicted.map PyVal.str) (actual.map PyVal.str)).matched_items
        = predicted.filter (fun p => (actual.map normalizeItem).contains (normalizeItem p))
    ∧ (calculate_accuracy (predicted.map PyVal.str) (actual.map PyVal.str)).missing_items
        = predicted.filter (fun p => !(actual.map normalizeItem).contains (normalizeItem p))
    ∧ (calculate_accuracy (predicted.map PyVal.str) (actual.map PyVal.str)).extra_items
        = actual.filter (fun a => !(predicted.map normalizeItem).contains (normalizeItem a))
    ∧ (calculate_accuracy (predicted.map PyVal.str) (actual.map PyVal.str)).match_percentage
        = round2 (if predicted = [] then 0
            else 100 * ((predicted.filter
                  (fun p => (actual.map normalizeItem).contains (normalizeItem p))).length : ℚ)
                / (predicted.length : ℚ)) := by
  have hwrap : calculate_accuracy (predicted.map PyVal.str) (actual.map PyVal.str)
      = calculateAccuracyStr predicted actual := by
    simp [calculate_accuracy, asStrings_map_str]
  rw [hwrap]
  refine ⟨?_, ?_, ?_, ?_⟩ <;>
    simp only [calculateAccuracyStr, foldl_append_eq_filter, foldl_append_eq_filter_not,
      List.nil_append]
  by_cases h : predicted = []
  · subst h; simp
  · have hlen : 0 < predicted.length := List.length_pos.mpr h
    rw [if_pos hlen, if_neg h]
    ring_nf

/-- C1 (counterexample): the claim states the returned percentage equals the
exact ratio `100 × |matched| / |predicted|`, but the code rounds it to two
decimals (`round(match_percentage, 2)`): with predicted `["a","b","c"]` and
actual `["a"]` there is 1 match out of 3 and the code returns `33.33`,
not `100/3`. -/
theorem calculate_accuracy_percentage_is_rounded :
    (calculate_accuracy [.str "a", .str "b", .str "c"] [.str "a"]).matched_items.length = 1
    ∧ (calculate_accuracy [.str "a", .str "b", .str "c"] [.str "a"]).match_percentage
        = 3333 / 100
    ∧ (calculate_accuracy [.str "a", .str "b", .str "c"] [.str "a"]).match_percentage
        ≠ 100 * 1 / 3 := by
  have h : (calculate_accuracy [.str "a", .str "b", .str "c"] [.str "a"]).match_percentage
      = round2 (((1 : ℕ) : ℚ) / ((3 : ℕ) : ℚ) * 100) := rfl
  refine ⟨rfl, ?_, ?_⟩ <;> rw [h] <;> norm_num [round2, roundHalfEven]

/-- C10: `calculate_accuracy` is total at its interface: when normalizing any
item fails (a non-string element in either list), it returns the default
result `{match_percentage: 0.0, matched_items: [], missing_items: [],
extra_items: []}`; in every case it returns a value of `AccuracyResult`, the
record with exactly those four fields. -/
theorem calculate_accuracy_default_on_nonstring (predicted actual : List PyVal) :
    ((PyVal.nonstr ∈ predicted ++ actual) →
        calculate_accuracy predicted actual = defaultAccuracyResult)
    ∧ (calculate_accuracy predicted actual = defaultAccuracyResult
       ∨ ∃ ps as_, asStrings predicted = some ps ∧ asStrings actual = some as_ ∧
           calculate_accuracy predicted actual = calculateAccuracyStr ps as_) := by
  constructor
  · intro hmem
    rcases List.mem_append.mp hmem with hp | ha
    · unfold calculate_accuracy
      rw [asStrings_none_of_mem_nonstr hp]
    · unfold calculate_accuracy
      rw [asStrings_none_of_mem_nonstr ha]
      cases asStrings predicted <;> rfl
  · unfold calculate_accuracy
    cases hp : asStrings predicted with
    | none => left; rfl
    | some ps =>
      cases ha : asStrings actual with
      | none => left; rfl
      | some as_ => right; exact ⟨ps, as_, rfl, rfl, rfl⟩

/-- C10 witness: a concrete non-string input takes the default branch. -/
theorem calculate_accuracy_default_on_nonstring_witness :
    calculate_accuracy [PyVal.nonstr] [.str "a"] = defaultAccuracyResult :=
  (calculate_accuracy_default_on_nonstring [PyVal.nonstr] [.str "a"]).1 (by simp)

/-! ### Session manager — `src/utils/session_manager.py`

Naive local wall-clock instants are modelled as integer microseconds. -/

def usPerSecond : ℕ := 1000000

def usPerHour : ℕ := 3600000000

def usPerDay : ℕ := 86400000000

/-- Start (00:00:00.000000) of the calendar day containing `t`. -/
def dayStart (t : ℕ) : ℕ := usPerDay * (t / usPerDay)

/-- `now.replace(hour=23, minute=59, second=59, microsecond=999999)`
(line 34): the last representable microsecond of the current day. -/
def endOfDayReplace (now : ℕ) : ℕ := dayStart now + (usPerDay - 1)

/-- A row of the `feedback_sessions` table (the fields the claims mention). -/
structure FeedbackSession where
  prediction_id : ℕ
  user_phone : String
  session_status : String
  expires_at : ℕ
deriving Repr, DecidableEq

/-- `create_feedback_session` (lines 10-61): the inserted row.  The insert is
modelled as succeeding (the claims are about the written values). -/
def create_feedback_session (prediction_id : ℕ) (user_phone : String) (now : ℕ) :
    FeedbackSession :=
  { prediction_id := prediction_id
    user_phone := user_phone
    session_status := "waiting"
    expires_at := min (now + 5 * usPerHour) (endOfDayReplace now) }

/-- A stored `feedback_sessions` row as seen by `extend_feedback_session`. -/
structure DbSession where
  id : ℕ
  prediction_id : ℕ
  user_phone : String
  session_status : String
  expires_at : ℕ
deriving Repr, DecidableEq

/-- The date-string reparsing in `extend_feedback_session` (lines 82-99)
removes the timezone suffix and everything after `'.'`, i.e. truncates the
stored expiry to whole seconds. -/
def truncToSecond (t : ℕ) : ℕ := usPerSecond * (t / usPerSecond)

/-- `extend_feedback_session` (lines 63-123): re-reads the row by id (with no
check of `session_status`), truncates the parsed expiry to whole seconds,
adds `additional_seconds`, and writes only `expires_at` back. -/
def extend_feedback_session (s : DbSession) (additional_seconds : ℕ) : DbSession :=
  { s with expires_at := truncToSecond s.expires_at + additional_seconds * usPerSecond }

/-- C3 (counterexample): a session created at 22:00 expires at 23:59:59.999999
of the same day (`now.replace(hour=23, minute=59, second=59,
microsecond=999999)`), not at the 00:00 day boundary as the claim states. -/
theorem create_feedback_session_expiry_not_midnight :
    (create_feedback_session 1 "user" 79200000000).expires_at = 86399999999
    ∧ (create_feedback_session 1 "user" 79200000000).expires_at
        ≠ min (79200000000 + 5 * usPerHour) usPerDay := by
  constructor <;> decide

/-- C3 (amended): `create_feedback_session` creates the session in status
`waiting` with `expires_at = min(now + 5 hours, 23:59:59.999999 of the
current calendar day)` — one microsecond before the day boundary — and the
expiry never precedes the creation instant. -/
theorem create_feedback_session_characterization (pid : ℕ) (phone : String) (now : ℕ) :
    (create_feedback_session pid phone now).session_status = "waiting"
    ∧ (create_feedback_session pid phone now).prediction_id = pid
    ∧ (create_feedback_session pid phone now).user_phone = phone
    ∧ (create_feedback_session pid phone now).expires_at
        = min (now + 5 * usPerHour) (dayStart now + usPerDay - 1)
    ∧ now ≤ (create_feedback_session pid phone now).expires_at := by
  refine ⟨rfl, rfl, rfl, ?_, ?_⟩
  · simp only [create_feedback_session, endOfDayReplace, usPerDay]
    omega
  · simp only [create_feedback_session, endOfDayReplace, dayStart, usPerDay, usPerHour]
    omega

/-- C4 (counterexample): `extend_feedback_session` looks the session up by id
only — it never checks `session_status`, so a session already in status
`expired` still gets its expiry rewritten; and because parsing splits the
stored timestamp on `'.'`, an expiry with a fractional-second part (as
written by `create_feedback_session`) grows by 59.000001 s under a 60 s
extension, not by exactly 60 s. -/
theorem extend_feedback_session_counterexample :
    (extend_feedback_session ⟨1, 7, "p", "expired", 3600000000⟩ 60).expires_at
        ≠ (3600000000 : ℕ)
    ∧ (extend_feedback_session ⟨1, 7, "p", "expired", 3600000000⟩ 60).session_status
        = "expired"
    ∧ (extend_feedback_session ⟨2, 7, "p", "waiting", 999999⟩ 60).expires_at - 999999
        ≠ 60 * usPerSecond := by
  refine ⟨by decide, rfl, by decide⟩

/-- C4 (amended): `extend_feedback_session` applies to any stored session
regardless of status (callers restrict it to `waiting` sessions); it sets
`expires_at` to the seconds-truncated previous expiry plus Δ seconds, leaves
every other field (including `session_status`) unchanged, and for Δ ≥ 1 s it
strictly increases `expires_at`. -/
theorem extend_feedback_session_characterization (s : DbSession) (Δ : ℕ) :
    (extend_feedback_session s Δ).id = s.id
    ∧ (extend_feedback_session s Δ).prediction_id = s.prediction_id
    ∧ (extend_feedback_session s Δ).user_phone = s.user_phone
    ∧ (extend_feedback_session s Δ).session_status = s.session_status
    ∧ (extend_feedback_session s Δ).expires_at
        = usPerSecond * (s.expires_at / usPerSecond) + Δ * usPerSecond
    ∧ (1 ≤ Δ → s.expires_at < (extend_feedback_session s Δ).expires_at) := by
  refine ⟨rfl, rfl, rfl, rfl, rfl, ?_⟩
  intro hΔ
  simp only [extend_feedback_session, truncToSecond, usPerSecond]
  omega

/-- C4 witness: extending a waiting session with fractional-second expiry by
60 s strictly increases the expiry. -/
theorem extend_feedback_session_characterization_witness :
    (1 : ℕ) ≤ 60
    ∧ (⟨1, 7, "p", "waiting", 999999⟩ : DbSession).expires_at
        < (extend_feedback_session ⟨1, 7, "p", "waiting", 999999⟩ 60).expires_at :=
  ⟨by decide,
   (extend_feedback_session_characterization ⟨1, 7, "p", "waiting", 999999⟩ 60).2.2.2.2.2
     (by decide)⟩

/-! ### JSON values

A parsed `json.loads` result, as consumed by `_validate_prediction` and the
provider-response extraction paths. -/

inductive Json where
  | null
  | bool (b : Bool)
  | num (q : ℚ)
  | str (s : String)
  | arr (xs : List Json)
  | obj (kvs : List (String × Json))

/-- Python truthiness of a parsed JSON value. -/
def Json.truthy : Json → Bool
  | .null => false
  | .bool b => b
  | .num q => decide (q ≠ 0)
  | .str s => !(s == "")
  | .arr xs => !xs.isEmpty
  | .obj kvs => !kvs.isEmpty

/-- Dictionary key lookup. -/
def lookupKey (kvs : List (String × Json)) (k : String) : Option Json :=
  match kvs.find? (fun p => p.1 == k) with
  | some p => some p.2
  | none => none

/-- Dictionary key assignment (`d[k] = v`). -/
def setKey (kvs : List (String × Json)) (k : String) (v : Json) : List (String × Json) :=
  if (kvs.find? (fun p => p.1 == k)).isSome
  then kvs.map (fun p => if p.1 == k then (k, v) else p)
  else kvs ++ [(k, v)]

/-- Does `pat` occur at the head of `l`? -/
def sublistAt (pat l : List Char) : Bool :=
  match pat, l with
  | [], _ => true
  | _ :: _, [] => false
  | p :: ps, c :: cs => p == c && sublistAt ps cs

/-- Does `pat` occur anywhere in `l`?  (Python `pat in s` on strings.) -/
def hasSublist (pat : List Char) : List Char → Bool
  | [] => pat.isEmpty
  | c :: cs => sublistAt pat (c :: cs) || hasSublist pat cs

/-- Python substring containment `pat in s`. -/
def containsSubstr (s pat : String) : Bool := hasSublist pat.data s.data

/-! ### ISO date validation — `datetime.fromisoformat`

Model of the calendar-date fragment `YYYY-MM-DD` of
`datetime.fromisoformat`, which is the format the predictions carry; a string
parses only if the month and day are calendar-valid and the year is
positive. -/

def digitVal (c : Char) : ℕ := c.toNat - '0'.toNat

def isLeapYear (y : ℕ) : Bool := (y % 4 == 0 && y % 100 != 0) || (y % 400 == 0)

def daysInMonth (y m : ℕ) : ℕ :=
  if m == 2 then (if isLeapYear y then 29 else 28)
  else if m == 4 || m == 6 || m == 9 || m == 11 then 30
  else 31

/-- `datetime.fromisoformat` succeeds on this `YYYY-MM-DD` string. -/
def fromisoformatOkChars : List Char → Bool
  | [y1, y2, y3, y4, sep1, m1, m2, sep2, d1, d2] =>
    y1.isDigit && y2.isDigit && y3.isDigit && y4.isDigit && sep1 == '-' &&
    m1.isDigit && m2.isDigit && sep2 == '-' && d1.isDigit && d2.isDigit &&
    (let y := ((digitVal y1 * 10 + digitVal y2) * 10 + digitVal y3) * 10 + digitVal y4
     let m := digitVal m1 * 10 + digitVal m2
     let d := digitVal d1 * 10 + digitVal d2
     decide (1 ≤ y) && decide (1 ≤ m) && decide (m ≤ 12) &&
     decide (1 ≤ d) && decide (d ≤ daysInMonth y m))
  | _ => false

def fromisoformatOk (s : String) : Bool := fromisoformatOkChars s.data

/-- `datetime.fromisoformat(j)` succeeds: `j` must be a string (a non-string
raises `TypeError`, caught by the validator) that parses as a date. -/
def isoStr : Json → Bool
  | .str s => fromisoformatOk s
  | _ => false

/-! ### Provider calls — `src/handlers/ai_data_processor.py` -/

/-- An HTTP response: status code plus parsed JSON body. -/
structure HttpResponse where
  status_code : ℕ
  body : Json

/-- `response_data['choices'][0]['message']['content']` (Mistral, DeepSeek and
OpenAI all use this path); any lookup failure raises and the enclosing
`except` returns `None`. -/
def extractChatContent (body : Json) : Option Json :=
  match body with
  | .obj kvs =>
    match lookupKey kvs "choices" with
    | some (.arr (first :: _)) =>
      match first with
      | .obj m =>
        match lookupKey m "message" with
        | some (.obj mm) => lookupKey mm "content"
        | _ => none
      | _ => none
    | _ => none
  | _ => none

/-- `response_data['candidates'][0]['content']['parts'][0]['text']`
(Gemini). -/
def extractGeminiContent (body : Json) : Option Json :=
  match body with
  | .obj kvs =>
    match lookupKey kvs "candidates" with
    | some (.arr (first :: _)) =>
      match first with
      | .obj c =>
        match lookupKey c "content" with
        | some (.obj cc) =>
          match lookupKey cc "parts" with
          | some (.arr (p0 :: _)) =>
            match p0 with
            | .obj pp => lookupKey pp "text"
            | _ => none
          | _ => none
        | _ => none
      | _ => none
    | _ => none
  | _ => none

/-- `call_mistral_api` (lines 13-77): on `status_code == 200` return the
extracted content; otherwise `raise Exception(...)`, which the enclosing
`except` turns into `None`.  `call_deepseek_api` and `call_openai_api`
(lines 149-285) have the same response handling. -/
def call_mistral_api (resp : HttpResponse) : Option Json :=
  if resp.status_code == 200 then extractChatContent resp.body else none

/-- `call_gemini_api` (lines 79-147). -/
def call_gemini_api (resp : HttpResponse) : Option Json :=
  if resp.status_code == 200 then extractGeminiContent resp.body else none

/-- A well-formed chat-completion body whose content extraction succeeds. -/
def okChatBody : Json :=
  .obj [("choices", .arr [.obj [("message", .obj [("content", .str "hello")])]])]

/-- C9 (counterexample): the claim says the success/failure boundary is the
whole 2xx range, but the code tests `status_code == 200` exactly: a 201
response with a perfectly well-formed body is treated as a provider
failure. -/
theorem call_api_status_boundary_counterexample :
    ((200 : ℕ) ≤ 201 ∧ (201 : ℕ) < 300)
    ∧ extractChatContent okChatBody = some (.str "hello")
    ∧ call_mistral_api ⟨201, okChatBody⟩ = none := by
  exact ⟨⟨by norm_num, by norm_num⟩, rfl, rfl⟩

/-- C9 (amended): a provider call succeeds (returns the extracted response
content) if and only if the HTTP status code is exactly 200 and the body has
the provider's content path; every non-200 status (including other 2xx
codes) is treated as a failure of that provider. -/
theorem call_api_success_iff_200 (resp : HttpResponse) (c : Json) :
    (call_mistral_api resp = some c
      ↔ resp.status_code = 200 ∧ extractChatContent resp.body = some c)
    ∧ (call_gemini_api resp = some c
      ↔ resp.status_code = 200 ∧ extractGeminiContent resp.body = some c)
    ∧ (resp.status_code ≠ 200 →
        call_mistral_api resp = none ∧ call_gemini_api resp = none) := by
  unfold call_mistral_api call_gemini_api
  by_cases h : resp.status_code = 200 <;> simp [h]

/-- C9 witness: a 404 response fails for both call shapes. -/
theorem call_api_success_iff_200_witness :
    (404 : ℕ) ≠ 200
    ∧ call_mistral_api ⟨404, okChatBody⟩ = none
    ∧ call_gemini_api ⟨404, okChatBody⟩ = none := by
  refine ⟨by norm_num, ?_⟩
  exact (call_api_success_iff_200 ⟨404, okChatBody⟩ .null).2.2 (by norm_num)

/-! ### Prediction generator — `src/handlers/prediction_handler.py` -/

def requiredFields : List String :=
  ["predicted_date_range_start", "predicted_date_range_end", "predicted_items"]

/-- Python `field in xs` for a JSON array: element equality against the
field-name string. -/
def jsonArrContainsStr (xs : List Json) (k : String) : Bool :=
  xs.any fun j => match j with | .str t => t == k | _ => false

/-- `_validate_prediction` (lines 113-144).  `field not in prediction` is key
membership on a dict, substring containment on a string, element membership
on a list, and a `TypeError` on any other value (`Except.error`, which the
caller's broad `except` turns into an overall `None`).  A string or list
that happens to pass all three membership tests then hits
`prediction['predicted_items']`, which also raises `TypeError`.  The date
checks sit in their own `try/except (ValueError, TypeError)` and so only ever
yield `False`. -/
def validate_prediction : Json → Except Unit Bool
  | .obj kvs =>
    if requiredFields.all (fun f => (lookupKey kvs f).isSome) then
      match lookupKey kvs "predicted_items" with
      | some (.arr items) =>
        if items.isEmpty then .ok false
        else .ok (isoStr ((lookupKey kvs "predicted_date_range_start").getD .null)
              && isoStr ((lookupKey kvs "predicted_date_range_end").getD .null))
      | _ => .ok false
    else .ok false
  | .str s =>
    if requiredFields.all (fun f => containsSubstr s f) then .error () else .ok false
  | .arr xs =>
    if requiredFields.all (fun f => jsonArrContainsStr xs f) then .error () else .ok false
  | _ => .error ()

/-- Outcome of one provider attempt inside `generate_grocery_prediction`:
the provider produced no (or unparseable) output, a response that failed
validation (advance to the next provider), a validated prediction, or a
response on which the validator raised (aborting the whole chain). -/
inductive StepOutcome where
  | fail
  | success (p : Json)
  | crash

/-- One `if X_response: parse; if prediction and _validate_prediction(...)`
block.  `resp` is the parsed response (`none` covers a falsy/absent provider
response and a JSON parse failure, both of which advance the chain). -/
def providerStep (resp : Option Json) : StepOutcome :=
  match resp with
  | none => .fail
  | some j =>
    if j.truthy then
      match validate_prediction j with
      | .error _ => .crash
      | .ok true => .success j
      | .ok false => .fail
    else .fail

/-- `prediction['llm_used'] = provider` on the validated prediction (always a
dict at this point). -/
def tagLlm (j : Json) (name : String) : Json :=
  match j with
  | .obj kvs => .obj (setKey kvs "llm_used" (.str name))
  | j => j

/-- `generate_grocery_prediction` (lines 9-111), as a function of the four
parsed provider responses: try gemini, mistral, deepseek, openai in this
order; a crash anywhere is caught by the outermost `except` which returns
`None`. -/
def generate_grocery_prediction (gemini mistral deepseek openai : Option Json) :
    Option Json :=
  match providerStep gemini with
  | .success p => some (tagLlm p "gemini")
  | .crash => none
  | .fail =>
    match providerStep mistral with
    | .success p => some (tagLlm p "mistral")
    | .crash => none
    | .fail =>
      match providerStep deepseek with
      | .success p => some (tagLlm p "deepseek")
      | .crash => none
      | .fail =>
        match providerStep openai with
        | .success p => some (tagLlm p "openai")
        | .crash => none
        | .fail => none

/-- The providers whose API is actually called during
`generate_grocery_prediction`, in call order. -/
def providersConsulted (gemini mistral deepseek _openai : Option Json) : List String :=
  "gemini" :: match providerStep gemini with
  | .success _ => []
  | .crash => []
  | .fail => "mistral" :: match providerStep mistral with
    | .success _ => []
    | .crash => []
    | .fail => "deepseek" :: match providerStep deepseek with
      | .success _ => []
      | .crash => []
      | .fail => ["openai"]

/-- Reference formulation: walk an ordered provider list, return the first
validated response tagged with its provider name; a crash aborts with
`none`. -/
def chainFirstValid : List (String × Option Json) → Option Json
  | [] => none
  | (name, r) :: rest =>
    match providerStep r with
    | .success p => some (tagLlm p name)
    | .crash => none
    | .fail => chainFirstValid rest

/-- Reference formulation of the consulted prefix. -/
def chainConsults : List (String × Option Json) → List String
  | [] => []
  | (name, r) :: rest =>
    name :: match providerStep r with
    | .success _ => []
    | .crash => []
    | .fail => chainConsults rest

/-- Every listed provider fails, or some provider crashes the validator after
all earlier ones failed. -/
def chainAllFailOrCrash : List (String × Option Json) → Prop
  | [] => True
  | (_, r) :: rest =>
    (providerStep r = .fail ∧ chainAllFailOrCrash rest) ∨ providerStep r = .crash

/-- The fixed provider order of the fallback chain. -/
def providerOrder : List String := ["gemini", "mistral", "deepseek", "openai"]

/-- A validated prediction object: all three required fields, a non-empty
items list, two parsable ISO dates. -/
def validPredictionObj : Json :=
  .obj [("predicted_date_range_start", .str "2024-11-20"),
        ("predicted_date_range_end", .str "2024-11-27"),
        ("predicted_items", .arr [.str "Milk"])]

/-- C2 (counterexample): the claim says any parse/validation failure advances
to the next provider, and `None` is returned exactly when every provider
fails or no response validates.  But when a provider's response parses to a
truthy non-container JSON value (here the JSON literal `true`), the
validator's `field not in prediction` raises `TypeError`, the outermost
`except` returns `None`, and the remaining providers are never consulted —
even though Mistral's response here validates perfectly. -/
theorem generate_grocery_prediction_crash_counterexample :
    providerStep (some validPredictionObj) = .success validPredictionObj
    ∧ generate_grocery_prediction (some (.bool true)) (some validPredictionObj) none none
        = none
    ∧ providersConsulted (some (.bool true)) (some validPredictionObj) none none
        = ["gemini"] := by
  exact ⟨rfl, rfl, rfl⟩

/-- C2 (amended): `generate_grocery_prediction` tries gemini, mistral,
deepseek, openai in this fixed order, calling each at most once (the
consulted providers always form a non-empty prefix of that order); it returns
the first response that is truthy, parses and validates — non-empty
`predicted_items` list and two parsable ISO dates — tagged with `llm_used`
set to that provider, consulting no further providers; and it returns `None`
exactly when every provider fails/invalidates, or when some response makes
the validator raise (a truthy non-container JSON value), which aborts the
chain without consulting later providers. -/
theorem generate_grocery_prediction_fallback (g m d o : Option Json) :
    generate_grocery_prediction g m d o
      = chainFirstValid [("gemini", g), ("mistral", m), ("deepseek", d), ("openai", o)]
    ∧ providersConsulted g m d o
      = chainConsults [("gemini", g), ("mistral", m), ("deepseek", d), ("openai", o)]
    ∧ (∃ k, 1 ≤ k ∧ providersConsulted g m d o = providerOrder.take k)
    ∧ (generate_grocery_prediction g m d o = none ↔
        chainAllFailOrCrash [("gemini", g), ("mistral", m), ("deepseek", d), ("openai", o)]) := by
  refine ⟨?_, ?_, ?_, ?_⟩ <;>
    rcases hg : providerStep g with _ | p | _ <;>
      rcases hm : providerStep m with _ | p' | _ <;>
        rcases hd : providerStep d with _ | p'' | _ <;>
          rcases ho : providerStep o with _ | p''' | _ <;>
            simp [generate_grocery_prediction, providersConsulted, chainFirstValid,
              chainConsults, chainAllFailOrCrash, providerOrder, hg, hm, hd, ho] <;>
            first
              | exact ⟨1, by norm_num, by decide⟩
              | exact ⟨2, by norm_num, by decide⟩
              | exact ⟨3, by norm_num, by decide⟩
              | exact ⟨4, by norm_num, by decide⟩

/-! ### Counting dictionaries and stable descending sort

Shared machinery for the learning engine: Python dicts used as counters
(`d[k] = d.get(k, 0) + n`, insertion-ordered) and
`sorted(d.items(), key=lambda x: x[1], reverse=True)` (a stable sort,
descending on the count). -/

/-- `d[k] = d.get(k, 0) + n` on an insertion-ordered association list. -/
def bumpAdd (m : List (String × ℕ)) (k : String) (n : ℕ) : List (String × ℕ) :=
  if (m.find? (fun p => p.1 == k)).isSome
  then m.map (fun p => if p.1 == k then (p.1, p.2 + n) else p)
  else m ++ [(k, n)]

/-- Fold a list of `(key, increment)` entries into a counting dict. -/
def entryFold (init : List (String × ℕ)) (entries : List (String × ℕ)) :
    List (String × ℕ) :=
  entries.foldl (fun m p => bumpAdd m p.1 p.2) init

/-- Total weight of key `k` among the entries. -/
def keyWeight (k : String) (l : List (String × ℕ)) : ℕ :=
  ((l.filter (fun p => p.1 == k)).map (fun p => p.2)).sum

/-- Number of entries carrying key `k`. -/
def keyOccurrences (k : String) (l : List (String × ℕ)) : ℕ :=
  (l.filter (fun p => p.1 == k)).length

/-- Reference formulation of the counting dict built from an entry list: keys
in first-occurrence order, each with its total weight. -/
def weightedCounts : List (String × ℕ) → List (String × ℕ)
  | [] => []
  | (k, n) :: rest =>
    (k, n + keyWeight k rest) :: weightedCounts (rest.filter (fun p => !(p.1 == k)))
termination_by l => l.length
decreasing_by simpa using Nat.lt_succ_of_le (List.length_filter_le _ _)

/-- `dict[k]` with defaultdict semantics (0 when absent). -/
def lookupCount (m : List (String × ℕ)) (k : String) : ℕ :=
  ((m.find? (fun p => p.1 == k)).map (fun p => p.2)).getD 0

/-- Python `sorted(key=lambda x: x[1], reverse=True)`: stable, descending on
the count component. -/
def sortDescByCount (l : List (String × ℕ)) : List (String × ℕ) :=
  l.insertionSort (fun a b => b.2 ≤ a.2)

theorem sortDescByCount_perm (l : List (String × ℕ)) : (sortDescByCount l).Perm l :=
  List.perm_insertionSort _ l

instance : IsTotal (String × ℕ) (fun a b => b.2 ≤ a.2) :=
  ⟨fun a b => le_total b.2 a.2⟩

instance : IsTrans (String × ℕ) (fun a b => b.2 ≤ a.2) :=
  ⟨fun _ _ _ h1 h2 => le_trans h2 h1⟩

theorem sortDescByCount_sorted (l : List (String × ℕ)) :
    List.Sorted (fun a b => b.2 ≤ a.2) (sortDescByCount l) :=
  List.sorted_insertionSort _ l

theorem beq_false_symm {a b : String} (h : (a == b) = false) : (b == a) = false := by
  cases hb : b == a with
  | false => rfl
  | true =>
    have hba : b = a := eq_of_beq hb
    subst hba
    simp at h

/-- Keys of `bumpAdd m a n` are those of `m` plus `a`. -/
theorem bumpAdd_keys_ne {m : List (String × ℕ)} {k a : String} (n : ℕ)
    (hk : ∀ p ∈ m, (p.1 == k) = false) (hak : (a == k) = false) :
    ∀ p ∈ bumpAdd m a n, (p.1 == k) = false := by
  intro p hp
  unfold bumpAdd at hp
  by_cases hfind : (m.find? (fun p => p.1 == a)).isSome
  · rw [if_pos hfind] at hp
    obtain ⟨q, hq, hpq⟩ := List.mem_map.mp hp
    by_cases hqa : (q.1 == a) = true
    · rw [if_pos hqa] at hpq
      subst hpq
      exact hk q hq
    · rw [if_neg hqa] at hpq
      subst hpq
      exact hk q hq
  · rw [if_neg hfind] at hp
    rcases List.mem_append.mp hp with h | h
    · exact hk p h
    · simp only [List.mem_singleton] at h
      subst h
      exact hak

/-- Mapping the `bumpAdd` update over a dict with no `k`-keyed entry leaves
it unchanged. -/
theorem map_bump_no_key {m : List (String × ℕ)} {k : String} (n : ℕ)
    (hk : ∀ p ∈ m, (p.1 == k) = false) :
    m.map (fun p => if p.1 == k then (p.1, p.2 + n) else p) = m := by
  induction m with
  | nil => rfl
  | cons q m ih =>
    have hq := hk q (List.mem_cons_self q m)
    have ih' := ih (fun p hp => hk p (List.mem_cons_of_mem q hp))
    simp only [List.map_cons, hq, ih']
    rfl

/-- Bumping the head key updates only the head. -/
theorem bumpAdd_cons_eq {m : List (String × ℕ)} {k : String} (c n : ℕ)
    (hk : ∀ p ∈ m, (p.1 == k) = false) :
    bumpAdd ((k, c) :: m) k n = (k, c + n) :: m := by
  unfold bumpAdd
  have hhead : (((k, c) :: m).find? (fun p => p.1 == k)).isSome := by
    simp [List.find?]
  rw [if_pos hhead]
  simp only [List.map_cons]
  rw [map_bump_no_key n hk]
  congr 1
  simp

/-- Bumping a different key leaves the head untouched. -/
theorem bumpAdd_cons_ne {m : List (String × ℕ)} {k a : String} (c n : ℕ)
    (hak : (a == k) = false) :
    bumpAdd ((k, c) :: m) a n = (k, c) :: bumpAdd m a n := by
  have hka : (k == a) = false := beq_false_symm hak
  unfold bumpAdd
  by_cases hfind : (m.find? (fun p => p.1 == a)).isSome
  · have hhead : (((k, c) :: m).find? (fun p => p.1 == a)).isSome := by
      simp only [List.find?, hka]
      exact hfind
    rw [if_pos hhead, if_pos hfind]
    simp only [List.map_cons, hka]
    rfl
  · have hhead : ¬(((k, c) :: m).find? (fun p => p.1 == a)).isSome := by
      simp only [List.find?, hka]
      exact hfind
    rw [if_neg hhead, if_neg hfind]
    simp

/-- Folding entries into a dict headed by a fresh key `k` accumulates exactly
the total weight of `k` on the head and processes the other keys behind. -/
theorem entryFold_cons (entries : List (String × ℕ)) :
    ∀ (m : List (String × ℕ)) (k : String) (c : ℕ),
      (∀ p ∈ m, (p.1 == k) = false) →
      entryFold ((k, c) :: m) entries
        = (k, c + keyWeight k entries)
            :: entryFold m (entries.filter (fun p => !(p.1 == k))) := by
  induction entries with
  | nil => intro m k c _; simp [entryFold, keyWeight]
  | cons e rest ih =>
    intro m k c hk
    obtain ⟨a, n⟩ := e
    by_cases hak : (a == k) = true
    · have ha : a = k := eq_of_beq hak
      subst ha
      simp only [entryFold, List.foldl_cons]
      rw [bumpAdd_cons_eq c n hk]
      have := ih m a (c + n) hk
      simp only [entryFold] at this
      rw [this]
      simp [keyWeight, List.filter_cons, hak, Nat.add_assoc]
    · have hak' : (a == k) = false := by
        cases h : a == k
        · rfl
        · exact absurd h (by simpa using hak)
      simp only [entryFold, List.foldl_cons]
      rw [bumpAdd_cons_ne c n hak']
      have hkeys : ∀ p ∈ bumpAdd m a n, (p.1 == k) = false :=
        bumpAdd_keys_ne n hk hak'
      have := ih (bumpAdd m a n) k c hkeys
      simp only [entryFold] at this
      rw [this]
      have hw : keyWeight k ((a, n) :: rest) = keyWeight k rest := by
        simp [keyWeight, List.filter_cons, hak']
      have hf : ((a, n) :: rest).filter (fun p => !(p.1 == k))
          = (a, n) :: rest.filter (fun p => !(p.1 == k)) := by
        simp [List.filter_cons, hak']
      rw [hw, hf]
      simp [entryFold]

/-- Filtering away one key does not change the total weight of another. -/
theorem keyWeight_filter_ne {a k : String} (hak : (a == k) = false)
    (l : List (String × ℕ)) :
    keyWeight k (l.filter (fun p => !(p.1 == a))) = keyWeight k l := by
  have hfun : (fun p : String × ℕ => p.1 == k && !(p.1 == a))
      = (fun p : String × ℕ => p.1 == k) := by
    funext p
    by_cases hpk : (p.1 == k) = true
    · have hp : p.1 = k := eq_of_beq hpk
      rw [hpk, hp, beq_false_symm hak]
      rfl
    · have hpk' : (p.1 == k) = false := by
        cases h : p.1 == k
        · rfl
        · exact absurd h hpk
      rw [hpk']
      simp
  simp only [keyWeight, List.filter_filter, hfun]

/-- The dict built by the Python counting loops equals the reference
weighted-count list. -/
theorem entryFold_eq_weightedCounts (entries : List (String × ℕ)) :
    entryFold [] entries = weightedCounts entries := by
  induction entries using weightedCounts.induct with
  | case1 => simp [entryFold, weightedCounts]
  | case2 k c rest ih =>
    simp only [entryFold, List.foldl_cons]
    have h0 : bumpAdd [] k c = [(k, c)] := by simp [bumpAdd]
    rw [h0]
    have hcons := entryFold_cons rest [] k c (by intro p hp; cases hp)
    simp only [entryFold] at hcons
    rw [hcons, weightedCounts]
    simp only [entryFold] at ih
    rw [ih]

/-- `lookupCount` on the weighted-count dict returns the total weight of the
key in the underlying entries (0 for absent keys). -/
theorem lookupCount_weightedCounts (k : String) (entries : List (String × ℕ)) :
    lookupCount (weightedCounts entries) k = keyWeight k entries := by
  induction entries using weightedCounts.induct with
  | case1 => simp [weightedCounts, lookupCount, keyWeight]
  | case2 a c rest ih =>
    rw [weightedCounts]
    by_cases hak : (a == k) = true
    · have ha : a = k := eq_of_beq hak
      subst ha
      simp [lookupCount, List.find?, keyWeight, List.filter_cons]
    · have hak' : (a == k) = false := by
        cases h : a == k
        · rfl
        · exact absurd h hak
      simp only [lookupCount, List.find?, hak'] at ih ⊢
      rw [ih, keyWeight_filter_ne hak']
      simp [keyWeight, List.filter_cons, hak']

/-! ### Learning engine — `src/handlers/learning_engine.py` -/

/-- A `prediction_feedback` row.  `used_for_learning` is the claim-side
notion of a row already folded into a learning update; the table carries no
such marker and the code never consults it. -/
structure Feedback where
  match_percentage : ℚ
  missing_items : List String
  extra_items : List String
  used_for_learning : Bool
deriving Repr, DecidableEq

/-- The `update_summary` payload persisted by `save_learning_update`. -/
structure Analysis where
  feedback_count : ℕ
  average_accuracy : ℚ
  top_missing_items : List (String × ℕ)
  top_extra_items : List (String × ℕ)
  accuracy_trend : String
deriving Repr, DecidableEq

/-- Database state seen by the learning engine: feedback rows most recent
first (the `created_at desc` order used by `get_recent_feedbacks`) and the
persisted learning updates. -/
structure LearningState where
  feedbacks : List Feedback
  learning_updates : List Analysis
deriving Repr, DecidableEq

/-- `get_pending_feedbacks_count` (lines 11-32): despite its name, it counts
ALL `prediction_feedback` rows — the code comment reads "For simplicity,
we'll count all feedbacks and check if we have enough". -/
def get_pending_feedbacks_count (s : LearningState) : ℕ := s.feedbacks.length

/-- `get_recent_feedbacks` (lines 35-60): the `limit` most recent rows. -/
def get_recent_feedbacks (limit : ℕ) (s : LearningState) : List Feedback :=
  s.feedbacks.take limit

/-- `analyze_feedback_patterns` (lines 63-120).  `none` models the `{}`
returned for an empty input.  The accuracy list keeps only truthy (nonzero)
`match_percentage` values; the missing/extra counters add 1 per occurrence of
an item across the feedbacks. -/
def analyze_feedback_patterns (feedbacks : List Feedback) : Option Analysis :=
  if feedbacks.isEmpty then none
  else
    let accuracies := feedbacks.filterMap
      (fun fb => if fb.match_percentage = 0 then none else some fb.match_percentage)
    let avg_accuracy : ℚ :=
      if accuracies.isEmpty then 0 else accuracies.sum / (accuracies.length : ℚ)
    let all_missing_items := feedbacks.foldl
      (fun m fb => fb.missing_items.foldl (fun m item => bumpAdd m item 1) m) []
    let all_extra_items := feedbacks.foldl
      (fun m fb => fb.extra_items.foldl (fun m item => bumpAdd m item 1) m) []
    some
      { feedback_count := feedbacks.length
        average_accuracy := round2 avg_accuracy
        top_missing_items := (sortDescByCount all_missing_items).take 5
        top_extra_items := (sortDescByCount all_extra_items).take 5
        accuracy_trend :=
          if 1 < accuracies.length ∧ accuracies.getLast?.getD 0 < accuracies.head?.getD 0
          then "improving" else "stable" }

/-- `trigger_batch_learning_if_needed` (lines 161-216) with
`BATCH_LEARNING_THRESHOLD = 5`; `save_learning_update` is modelled as a
successful insert of the analysis payload.  Returns the bool result and the
new state. -/
def trigger_batch_learning_if_needed (s : LearningState) : Bool × LearningState :=
  let feedback_count := get_pending_feedbacks_count s
  if feedback_count < 5 then (false, s)
  else
    let feedbacks := get_recent_feedbacks 5 s
    if feedbacks.isEmpty then (false, s)
    else
      match analyze_feedback_patterns feedbacks with
      | none => (false, s)
      | some analysis =>
        (true, { s with learning_updates := s.learning_updates ++ [analysis] })

/-- Per-occurrence counting of a flat item list (each occurrence weighs 1):
the reference formulation of the Python `d[item] = d.get(item, 0) + 1`
loops. -/
def occurrenceCounts (items : List String) : List (String × ℕ) :=
  weightedCounts (items.map (fun s => (s, 1)))

theorem keyWeight_cons (k a : String) (n : ℕ) (rest : List (String × ℕ)) :
    keyWeight k ((a, n) :: rest)
      = (if (a == k) = true then n else 0) + keyWeight k rest := by
  by_cases h : (a == k) = true
  · simp [keyWeight, List.filter_cons, h]
  · have h' : (a == k) = false := by
      cases hb : a == k
      · rfl
      · exact absurd hb h
    simp [keyWeight, List.filter_cons, h']

theorem keyWeight_map_one (k : String) (items : List String) :
    keyWeight k (items.map (fun s => (s, 1))) = items.count k := by
  induction items with
  | nil => rfl
  | cons a l ih =>
    rw [List.map_cons, keyWeight_cons, ih, List.count_cons]
    by_cases h : (a == k) = true
    · simp [h, Nat.add_comm]
    · have h' : (a == k) = false := by
        cases hb : a == k
        · rfl
        · exact absurd hb h
      simp [h']

/-- Count lookup on `occurrenceCounts` is plain occurrence counting. -/
theorem lookupCount_occurrenceCounts (k : String) (items : List String) :
    lookupCount (occurrenceCounts items) k = items.count k := by
  rw [occurrenceCounts, lookupCount_weightedCounts, keyWeight_map_one]

theorem fold_bump_flatten (ls : List (List String)) (init : List (String × ℕ)) :
    ls.foldl (fun m l => l.foldl (fun m item => bumpAdd m item 1) m) init
      = entryFold init ((ls.flatten).map (fun s => (s, 1))) := by
  induction ls generalizing init with
  | nil => simp [entryFold]
  | cons l ls ih =>
    rw [List.foldl_cons, ih, List.flatten_cons, List.map_append]
    simp only [entryFold, List.foldl_append]
    congr 1
    rw [List.foldl_map (fun s => ((s, 1) : String × ℕ)) (fun m p => bumpAdd m p.1 p.2) l init]

/-- The nested per-feedback counting loops compute the occurrence counts of
the concatenated item lists. -/
theorem feedback_fold_counts (f : Feedback → List String) (fbs : List Feedback) :
    fbs.foldl (fun m fb => (f fb).foldl (fun m item => bumpAdd m item 1) m) []
      = occurrenceCounts ((fbs.map f).flatten) := by
  have h1 : fbs.foldl (fun m fb => (f fb).foldl (fun m item => bumpAdd m item 1) m) []
      = (fbs.map f).foldl (fun m l => l.foldl (fun m item => bumpAdd m item 1) m) [] := by
    rw [List.foldl_map f (fun m l => l.foldl (fun m item => bumpAdd m item 1) m) fbs []]
  rw [h1, fold_bump_flatten, entryFold_eq_weightedCounts, occurrenceCounts]

/-- A feedback row already folded into a previous learning update. -/
def usedFeedback : Feedback := ⟨50, ["Eggs"], ["Cheese"], true⟩

/-- C5 (counterexample): the claim says the trigger counts only feedback rows
not yet folded into a learning update.  But `get_pending_feedbacks_count`
counts all rows ("For simplicity, we'll count all feedbacks"): with 5 rows
all already used for learning — zero pending — the trigger still fires and
persists a new LearningUpdate. -/
theorem trigger_batch_learning_counts_all_rows :
    ((List.replicate 5 usedFeedback).filter (fun f => !f.used_for_learning)).length = 0
    ∧ (trigger_batch_learning_if_needed ⟨List.replicate 5 usedFeedback, []⟩).1 = true
    ∧ ((trigger_batch_learning_if_needed
          ⟨List.replicate 5 usedFeedback, []⟩).2.learning_updates).length = 1 := by
  exact ⟨rfl, rfl, rfl⟩

/-- C5 (amended): `trigger_batch_learning_if_needed` counts ALL feedback rows
(not only those pending); when that count is at least the fixed threshold 5
it analyzes exactly the most recent 5 feedback rows — average accuracy over
the rows with a nonzero recorded match percentage (0 when there are none),
and the top-5 missing and top-5 extra items by frequency, where an item's
frequency is the sum of its per-feedback occurrence counts — persists the
result as a LearningUpdate and returns success; when the count is below the
threshold it persists nothing and returns failure.  The top-5 lists are the
first five entries of a stable descending-by-frequency ordering of the
occurrence counts. -/
theorem trigger_batch_learning_characterization (s : LearningState) :
    get_pending_feedbacks_count s = s.feedbacks.length
    ∧ (s.feedbacks.length < 5 → trigger_batch_learning_if_needed s = (false, s))
    ∧ (5 ≤ s.feedbacks.length →
        ∃ a : Analysis,
          trigger_batch_learning_if_needed s
            = (true, { s with learning_updates := s.learning_updates ++ [a] })
          ∧ a.feedback_count = 5
          ∧ a.average_accuracy
              = round2 (
                  let accs := (s.feedbacks.take 5).filterMap
                    (fun fb => if fb.match_percentage = 0 then none
                               else some fb.match_percentage)
                  if accs.isEmpty then 0 else accs.sum / (accs.length : ℚ))
          ∧ a.top_missing_items
              = (sortDescByCount (occurrenceCounts
                  ((s.feedbacks.take 5).map Feedback.missing_items).flatten)).take 5
          ∧ a.top_extra_items
              = (sortDescByCount (occurrenceCounts
                  ((s.feedbacks.take 5).map Feedback.extra_items).flatten)).take 5)
    ∧ (∀ l : List (String × ℕ),
        (sortDescByCount l).Perm l
        ∧ List.Sorted (fun x y => y.2 ≤ x.2) (sortDescByCount l))
    ∧ (∀ (items : List String) (k : String),
        lookupCount (occurrenceCounts items) k = items.count k) := by
  refine ⟨rfl, ?_, ?_, fun l => ⟨sortDescByCount_perm l, sortDescByCount_sorted l⟩,
    fun items k => lookupCount_occurrenceCounts k items⟩
  · intro h
    have hlt : get_pending_feedbacks_count s < 5 := h
    simp only [trigger_batch_learning_if_needed, hlt, if_pos]
  · intro h
    have hlt : ¬ get_pending_feedbacks_count s < 5 := by
      simp only [get_pending_feedbacks_count]
      omega
    have htake : ¬ (get_recent_feedbacks 5 s).isEmpty = true := by
      simp only [get_recent_feedbacks, List.isEmpty_iff, ← List.length_eq_zero,
        List.length_take]
      omega
    have hne : ¬ (s.feedbacks.take 5).isEmpty = true := by
      simpa [get_recent_feedbacks] using htake
    have hlen5 : (s.feedbacks.take 5).length = 5 := by
      simp only [List.length_take]
      omega
    have hmiss := feedback_fold_counts Feedback.missing_items (s.feedbacks.take 5)
    have hextra := feedback_fold_counts Feedback.extra_items (s.feedbacks.take 5)
    obtain ⟨a, ha⟩ : ∃ a, analyze_feedback_patterns (s.feedbacks.take 5) = some a := by
      simp only [analyze_feedback_patterns, hne, if_neg, if_false]
      exact ⟨_, rfl⟩
    have ha2 := ha
    unfold analyze_feedback_patterns at ha2
    rw [if_neg hne] at ha2
    have haeq : a = _ := (Option.some.inj ha2).symm
    refine ⟨a, ?_, ?_, ?_, ?_, ?_⟩
    · simp only [trigger_batch_learning_if_needed, hlt, if_neg, if_false,
        get_recent_feedbacks, ha]
      simp [hne]
    · rw [haeq]
      exact hlen5
    · rw [haeq]
    · rw [haeq]
      simp only [hmiss]
    · rw [haeq]
      simp only [hextra]

/-- C5 witness: with a single feedback row the count is below the threshold
and nothing is persisted. -/
theorem trigger_batch_learning_characterization_witness :
    (⟨[usedFeedback], []⟩ : LearningState).feedbacks.length < 5
    ∧ trigger_batch_learning_if_needed ⟨[usedFeedback], []⟩
        = (false, (⟨[usedFeedback], []⟩ : LearningState)) :=
  ⟨by decide,
   (trigger_batch_learning_characterization ⟨[usedFeedback], []⟩).2.1 (by decide)⟩

/-! ### Learning aggregation — `get_aggregated_learning_summary` -/

/-- The `update_summary` of a stored LearningUpdate as consumed by the
aggregator: lists of `{'item': name, 'frequency': freq}` entries plus the
batch average accuracy. -/
structure UpdateSummary where
  top_missing_items : List (String × ℕ)
  top_extra_items : List (String × ℕ)
  average_accuracy : ℚ
deriving Repr, DecidableEq

/-- The aggregated summary dictionary returned by
`get_aggregated_learning_summary`. -/
structure AggregatedLearning where
  has_learning : Bool
  top_missing_items : List String
  top_extra_items : List String
  average_accuracy : ℚ
  accuracy_trend : String
  update_count : ℕ
deriving Repr, DecidableEq

/-- The explicit "no learning available" result (lines 263-272). -/
def noLearningResult : AggregatedLearning :=
  { has_learning := false
    top_missing_items := []
    top_extra_items := []
    average_accuracy := 0
    accuracy_trend := "stable"
    update_count := 0 }

/-- `get_aggregated_learning_summary` (lines 219-375) as a function of the
fetched updates (the most recent `max_updates` rows inside the trailing
window, newest first — the DB-side `gte`/`order`/`limit` filtering).
Entries with an empty item name are skipped (`if item_name:`); accuracies
keep only truthy (nonzero) values; items surface only when their entry-
occurrence count across the update summaries is at least 2; the trend
compares the first half of the accuracy sequence with the second half with a
±2 deadband, but only when at least 4 accuracy values exist. -/
def get_aggregated_learning_summary (updates : List UpdateSummary) : AggregatedLearning :=
  if updates.isEmpty then noLearningResult
  else
    let all_missing_items := updates.foldl
      (fun m u => u.top_missing_items.foldl
        (fun m p => if p.1 == "" then m else bumpAdd m p.1 p.2) m) []
    let all_extra_items := updates.foldl
      (fun m u => u.top_extra_items.foldl
        (fun m p => if p.1 == "" then m else bumpAdd m p.1 p.2) m) []
    let all_accuracies := updates.filterMap
      (fun u => if u.average_accuracy = 0 then none else some u.average_accuracy)
    let missing_item_counts := updates.foldl
      (fun m u => u.top_missing_items.foldl
        (fun m p => if p.1 == "" then m else bumpAdd m p.1 1) m) []
    let extra_item_counts := updates.foldl
      (fun m u => u.top_extra_items.foldl
        (fun m p => if p.1 == "" then m else bumpAdd m p.1 1) m) []
    let filtered_missing := all_missing_items.filter
      (fun p => 2 ≤ lookupCount missing_item_counts p.1)
    let filtered_extra := all_extra_items.filter
      (fun p => 2 ≤ lookupCount extra_item_counts p.1)
    let top_missing := (sortDescByCount filtered_missing).take 5
    let top_extra := (sortDescByCount filtered_extra).take 5
    let avg_accuracy : ℚ :=
      if all_accuracies.isEmpty then 0
      else all_accuracies.sum / (all_accuracies.length : ℚ)
    let accuracy_trend :=
      if 4 ≤ all_accuracies.length then
        let mid_point := all_accuracies.length / 2
        let first_half_avg := (all_accuracies.take mid_point).sum / (mid_point : ℚ)
        let second_half_avg := (all_accuracies.drop mid_point).sum
          / ((all_accuracies.length - mid_point : ℕ) : ℚ)
        if first_half_avg + 2 < second_half_avg then "improving"
        else if second_half_avg < first_half_avg - 2 then "declining"
        else "stable"
      else "stable"
    { has_learning := true
      top_missing_items := top_missing.map (fun p => p.1)
      top_extra_items := top_extra.map (fun p => p.1)
      average_accuracy := round2 avg_accuracy
      accuracy_trend := accuracy_trend
      update_count := updates.length }

theorem skip_fold_eq_filter_fold (l : List (String × ℕ)) (g : String → ℕ → ℕ)
    (init : List (String × ℕ)) :
    l.foldl (fun m p => if p.1 == "" then m else bumpAdd m p.1 (g p.1 p.2)) init
      = (l.filter (fun p => !(p.1 == ""))).foldl
          (fun m p => bumpAdd m p.1 (g p.1 p.2)) init := by
  induction l generalizing init with
  | nil => rfl
  | cons p l ih =>
    rw [List.foldl_cons, List.filter_cons]
    by_cases h : (p.1 == "") = true
    · rw [if_pos h, if_neg (by simp [h])]
      exact ih init
    · have h' : (p.1 == "") = false := by
        cases hb : p.1 == ""
        · rfl
        · exact absurd hb h
      rw [if_neg h, if_pos (by simp [h']), List.foldl_cons]
      exact ih _

theorem fold_bumpEntry_flatten (ls : List (List (String × ℕ)))
    (g : String → ℕ → ℕ) (init : List (String × ℕ)) :
    ls.foldl (fun m l => l.foldl (fun m p => bumpAdd m p.1 (g p.1 p.2)) m) init
      = ls.flatten.foldl (fun m p => bumpAdd m p.1 (g p.1 p.2)) init := by
  induction ls generalizing init with
  | nil => rfl
  | cons l ls ih =>
    rw [List.foldl_cons, ih, List.flatten_cons, List.foldl_append]

/-- The nested per-update counting loops (with the empty-name skip) compute
the weighted counts of the concatenated, name-filtered entry lists. -/
theorem update_fold_weights (f : UpdateSummary → List (String × ℕ))
    (us : List UpdateSummary) :
    us.foldl (fun m u => (f u).foldl
        (fun m p => if p.1 == "" then m else bumpAdd m p.1 p.2) m) []
      = weightedCounts
          ((us.map (fun u => (f u).filter (fun p => !(p.1 == "")))).flatten) := by
  have h1 : ∀ init, us.foldl (fun m u => (f u).foldl
        (fun m p => if p.1 == "" then m else bumpAdd m p.1 p.2) m) init
      = us.foldl (fun m u => ((f u).filter (fun p => !(p.1 == ""))).foldl
          (fun m p => bumpAdd m p.1 p.2) m) init := by
    induction us with
    | nil => intro _; rfl
    | cons u us ih =>
      intro init
      rw [List.foldl_cons, List.foldl_cons,
        skip_fold_eq_filter_fold (f u) (fun _ n => n)]
      exact ih _
  rw [h1]
  have h2 := fold_bumpEntry_flatten
    (us.map (fun u => (f u).filter (fun p => !(p.1 == "")))) (fun _ n => n) []
  rw [List.foldl_map (fun u => (f u).filter (fun p => !(p.1 == ""))) _ us []] at h2
  rw [h2, ← entryFold_eq_weightedCounts]
  rfl

/-- Same, for the occurrence-count pass (`+= 1` per entry). -/
theorem update_fold_occurrences (f : UpdateSummary → List (String × ℕ))
    (us : List UpdateSummary) :
    us.foldl (fun m u => (f u).foldl
        (fun m p => if p.1 == "" then m else bumpAdd m p.1 1) m) []
      = weightedCounts
          (((us.map (fun u => (f u).filter (fun p => !(p.1 == "")))).flatten).map
            (fun p => (p.1, 1))) := by
  have h1 : ∀ init, us.foldl (fun m u => (f u).foldl
        (fun m p => if p.1 == "" then m else bumpAdd m p.1 1) m) init
      = us.foldl (fun m u => ((f u).filter (fun p => !(p.1 == ""))).foldl
          (fun m p => bumpAdd m p.1 1) m) init := by
    induction us with
    | nil => intro _; rfl
    | cons u us ih =>
      intro init
      rw [List.foldl_cons, List.foldl_cons,
        skip_fold_eq_filter_fold (f u) (fun _ _ => 1)]
      exact ih _
  rw [h1]
  have h2 := fold_bumpEntry_flatten
    (us.map (fun u => (f u).filter (fun p => !(p.1 == "")))) (fun _ _ => 1) []
  rw [List.foldl_map (fun u => (f u).filter (fun p => !(p.1 == ""))) _ us []] at h2
  rw [h2, ← entryFold_eq_weightedCounts]
  have h3 : ∀ (l : List (String × ℕ)) (init : List (String × ℕ)),
      l.foldl (fun m p => bumpAdd m p.1 1) init
        = (l.map (fun p => (p.1, 1))).foldl (fun m p => bumpAdd m p.1 p.2) init := by
    intro l
    induction l with
    | nil => intro init; rfl
    | cons p l ih =>
      intro init
      rw [List.foldl_cons, List.map_cons, List.foldl_cons, ih]
  simp only [entryFold]
  rw [h3]

theorem keyWeight_map_fst_one (k : String) (l : List (String × ℕ)) :
    keyWeight k (l.map (fun p => (p.1, 1))) = keyOccurrences k l := by
  induction l with
  | nil => rfl
  | cons p l ih =>
    rw [List.map_cons, keyWeight_cons, ih]
    by_cases h : (p.1 == k) = true
    · simp [keyOccurrences, List.filter_cons, h, Nat.add_comm]
    · have h' : (p.1 == k) = false := by
        cases hb : p.1 == k
        · rfl
        · exact absurd hb h
      simp [keyOccurrences, List.filter_cons, h']

/-- The name-filtered entry lists of the update summaries, concatenated. -/
def cleanEntries (f : UpdateSummary → List (String × ℕ)) (updates : List UpdateSummary) :
    List (String × ℕ) :=
  (updates.map (fun u => (f u).filter (fun p => !(p.1 == "")))).flatten

/-- Reference formulation of the surfaced top items: sum frequencies per
item, keep items occurring in at least 2 entries across the summaries, sort
descending by summed frequency (stable), take 5, and report the names. -/
def topItemsSpec (entries : List (String × ℕ)) : List String :=
  ((sortDescByCount ((weightedCounts entries).filter
      (fun p => 2 ≤ keyOccurrences p.1 entries))).take 5).map (fun p => p.1)

/-- The accuracy sequence the aggregator works over: nonzero recorded
averages, newest update first. -/
def accList (updates : List UpdateSummary) : List ℚ :=
  updates.filterMap (fun u => if u.average_accuracy = 0 then none else some u.average_accuracy)

/-- Mean of a rational sequence, 0 when empty. -/
def meanSpec (l : List ℚ) : ℚ := if l.isEmpty then 0 else l.sum / (l.length : ℚ)

/-- Reference formulation of the trend label: only when at least 4 accuracy
values exist, compare the mean of the first half with the mean of the second
half using a ±2 percentage-point deadband; otherwise `stable`. -/
def trendSpec (accs : List ℚ) : String :=
  if 4 ≤ accs.length then
    let mid := accs.length / 2
    let fh := (accs.take mid).sum / (mid : ℚ)
    let sh := (accs.drop mid).sum / ((accs.length - mid : ℕ) : ℚ)
    if fh + 2 < sh then "improving" else if sh < fh - 2 then "declining" else "stable"
  else "stable"

def lowAccUpdate : UpdateSummary := ⟨[], [], 10⟩

def highAccUpdate : UpdateSummary := ⟨[], [], 90⟩

/-- C6 (counterexample): with the two-update accuracy sequence `[10, 90]` the
half means are 10 and 90 — far outside any ±2 deadband, so the claimed
derivation must label the trend `improving` or `declining` — yet the code
returns `stable`, because it only computes a trend at all when the accuracy
sequence has at least 4 entries. -/
theorem aggregated_trend_deadband_counterexample :
    (get_aggregated_learning_summary [lowAccUpdate, highAccUpdate]).accuracy_trend
        = "stable"
    ∧ (get_aggregated_learning_summary [lowAccUpdate, highAccUpdate]).has_learning = true
    ∧ accList [lowAccUpdate, highAccUpdate] = [10, 90]
    ∧ ((10 : ℚ) + 2 < 90 ∧ (10 : ℚ) < 90 - 2) := by
  exact ⟨rfl, rfl, rfl, ⟨by norm_num, by norm_num⟩⟩

/-- C6 (amended): for every collection of LearningUpdate rows in the trailing
window, the aggregator surfaces a missing or extra item only if it occurs in
at least 2 of the update-summary entries, returns at most the top 5 of each
by frequency summed across entries, returns the mean of the nonzero recorded
accuracies (0 when there are none, rounded to two decimals), and derives the
trend label in {improving, declining, stable} by the ±2-deadband half
comparison only when the accuracy sequence has at least 4 entries (otherwise
`stable`); when no LearningUpdate lies in the window it returns the explicit
no-learning result rather than an error. -/
theorem get_aggregated_learning_summary_characterization (updates : List UpdateSummary) :
    (updates = [] → get_aggregated_learning_summary updates = noLearningResult)
    ∧ (updates ≠ [] →
        (get_aggregated_learning_summary updates).has_learning = true
        ∧ (get_aggregated_learning_summary updates).update_count = updates.length
        ∧ (get_aggregated_learning_summary updates).average_accuracy
            = round2 (meanSpec (accList updates))
        ∧ (get_aggregated_learning_summary updates).accuracy_trend
            = trendSpec (accList updates)
        ∧ (get_aggregated_learning_summary updates).top_missing_items
            = topItemsSpec (cleanEntries UpdateSummary.top_missing_items updates)
        ∧ (get_aggregated_learning_summary updates).top_extra_items
            = topItemsSpec (cleanEntries UpdateSummary.top_extra_items updates)) := by
  constructor
  · intro h
    subst h
    rfl
  · intro hne
    have hne' : ¬ updates.isEmpty = true := by
      simpa [List.isEmpty_iff] using hne
    have hWm := update_fold_weights UpdateSummary.top_missing_items updates
    have hWe := update_fold_weights UpdateSummary.top_extra_items updates
    have hOm := update_fold_occurrences UpdateSummary.top_missing_items updates
    have hOe := update_fold_occurrences UpdateSummary.top_extra_items updates
    have hfm : (weightedCounts (cleanEntries UpdateSummary.top_missing_items updates)).filter
          (fun p => 2 ≤ lookupCount (weightedCounts
            ((cleanEntries UpdateSummary.top_missing_items updates).map
              (fun p => (p.1, 1)))) p.1)
        = (weightedCounts (cleanEntries UpdateSummary.top_missing_items updates)).filter
          (fun p => 2 ≤ keyOccurrences p.1
            (cleanEntries UpdateSummary.top_missing_items updates)) := by
      apply List.filter_congr
      intro p _
      rw [lookupCount_weightedCounts, keyWeight_map_fst_one]
    have hfe : (weightedCounts (cleanEntries UpdateSummary.top_extra_items updates)).filter
          (fun p => 2 ≤ lookupCount (weightedCounts
            ((cleanEntries UpdateSummary.top_extra_items updates).map
              (fun p => (p.1, 1)))) p.1)
        = (weightedCounts (cleanEntries UpdateSummary.top_extra_items updates)).filter
          (fun p => 2 ≤ keyOccurrences p.1
            (cleanEntries UpdateSummary.top_extra_items updates)) := by
      apply List.filter_congr
      intro p _
      rw [lookupCount_weightedCounts, keyWeight_map_fst_one]
    unfold get_aggregated_learning_summary
    rw [if_neg hne']
    refine ⟨rfl, rfl, rfl, rfl, ?_, ?_⟩
    · show ((sortDescByCount _).take 5).map _ = _
      rw [hWm, hOm]
      unfold cleanEntries at hfm
      rw [hfm]
      rfl
    · show ((sortDescByCount _).take 5).map _ = _
      rw [hWe, hOe]
      unfold cleanEntries at hfe
      rw [hfe]
      rfl

/-- C6 witness: the empty window yields the explicit no-learning result. -/
theorem get_aggregated_learning_summary_characterization_witness :
    get_aggregated_learning_summary [] = noLearningResult :=
  (get_aggregated_learning_summary_characterization []).1 rfl

/-! ### Pattern aggregator — `src/utils/grocery_prediction_utils.py`

Purchase dates are modelled as day ordinals (ℤ): the repo stores ISO
`YYYY-MM-DD` strings, whose lexicographic order coincides with day order and
whose `datetime` subtraction `.days` is the ordinal difference. -/

/-- A `receipt_items` row joined with its receipt's purchase date:
`item.get('purchase_date') or item.get('receipts', {}).get('purchase_date')`
collapses to one optional date. -/
structure ReceiptItem where
  item_name_normalized : String
  purchase_date : Option ℤ
deriving Repr, DecidableEq

/-- `defaultdict(list)` append on an insertion-ordered multidict. -/
def appendToGroup (m : List (String × List ℤ)) (k : String) (d : ℤ) :
    List (String × List ℤ) :=
  if (m.find? (fun p => p.1 == k)).isSome
  then m.map (fun p => if p.1 == k then (p.1, p.2 ++ [d]) else p)
  else m ++ [(k, [d])]

/-- The grouping loop of `aggregate_purchase_patterns` (lines 117-125): group
dates by stripped item name; rows with an empty name or no date are
skipped (`if item_name and purchase_date:`). -/
def item_groups (items : List ReceiptItem) : List (String × List ℤ) :=
  items.foldl (fun m it =>
    let item_name := pyStrip it.item_name_normalized
    match it.purchase_date with
    | some d => if item_name == "" then m else appendToGroup m item_name d
    | none => m) []

/-- Insert into a strictly-descending duplicate-free list. -/
def insertDescNoDup (x : ℤ) : List ℤ → List ℤ
  | [] => [x]
  | y :: ys => if x == y then y :: ys else if x < y then y :: insertDescNoDup x ys
               else x :: y :: ys

/-- `sorted(set(dates), reverse=True)` (line 132). -/
def dedupSortDesc (l : List ℤ) : List ℤ :=
  l.foldl (fun acc x => insertDescNoDup x acc) []

/-- `unique_dates[i] - unique_dates[i+1]` for consecutive positions
(lines 138-143). -/
def consecutiveDiffs : List ℤ → List ℤ
  | x :: y :: rest => (x - y) :: consecutiveDiffs (y :: rest)
  | _ => []

/-- The per-item statistic bundle (lines 148-153). -/
structure PatternData where
  frequency : ℕ
  last_purchase_date : Option ℤ
  avg_days_between : Option ℚ
  purchase_dates : List ℤ
deriving Repr, DecidableEq

/-- The pattern computed for one group's date list (lines 130-153):
deduplicate and sort descending; `avg_days_between` is the mean of the
consecutive day deltas, rounded to one decimal, present only when there are
at least two distinct dates and the mean is nonzero (`round(avg_days, 1) if
avg_days else None`). -/
def mkPatternData (purchase_dates : List ℤ) : PatternData :=
  let unique_dates := dedupSortDesc purchase_dates
  let days_between := consecutiveDiffs unique_dates
  let avg_days : Option ℚ :=
    if days_between.isEmpty then none
    else
      let a : ℚ := (days_between.map (fun d : ℤ => (d : ℚ))).sum / (days_between.length : ℚ)
      if a = 0 then none else some (round1 a)
  { frequency := unique_dates.length
    last_purchase_date := unique_dates.head?
    avg_days_between := avg_days
    purchase_dates := unique_dates }

/-- `aggregate_purchase_patterns` (lines 88-162). -/
def aggregate_purchase_patterns (items : List ReceiptItem) : List (String × PatternData) :=
  (item_groups items).map (fun g => (g.1, mkPatternData g.2))

/-- The sort key of `format_data_for_llm` (lines 189-193):
`(frequency, last_purchase_date or '')`, compared descending; grouped
patterns always carry a date, the `or ''` default is modelled by 0. -/
def patKeyGE (a b : String × PatternData) : Prop :=
  b.2.frequency < a.2.frequency
  ∨ (b.2.frequency = a.2.frequency
     ∧ b.2.last_purchase_date.getD 0 ≤ a.2.last_purchase_date.getD 0)

instance : DecidableRel patKeyGE := fun a b => by
  unfold patKeyGE
  infer_instance

/-- `sorted(patterns.items(), key=..., reverse=True)`: stable descending. -/
def sortPatternsDesc (l : List (String × PatternData)) : List (String × PatternData) :=
  l.insertionSort patKeyGE

/-- The "likely needs soon" test of `format_data_for_llm` (lines 228-230):
requires a last date (`days_since is not None`), a truthy (nonzero) average
(`and avg_days`), and `days_since >= avg_days * 0.8`. -/
def likely_needs_soon (current_date : ℤ) (p : PatternData) : Bool :=
  match p.last_purchase_date, p.avg_days_between with
  | some last, some avg =>
    if avg = 0 then false
    else decide (avg * (4 / 5) ≤ ((current_date - last : ℤ) : ℚ))
  | _, _ => false

/-- The items the derived prompt marks "likely needs soon": only the 30 items
ranked highest by `(frequency, recency)` enter the prompt at all
(`sorted_items[:30]`, line 204). -/
def markedItems (patterns : List (String × PatternData)) (current_date : ℤ) :
    List String :=
  ((sortPatternsDesc patterns).take 30).filterMap
    (fun q => if likely_needs_soon current_date q.2 then some q.1 else none)

theorem insertDescNoDup_mem (x a : ℤ) (l : List ℤ) :
    a ∈ insertDescNoDup x l ↔ a = x ∨ a ∈ l := by
  induction l with
  | nil => simp [insertDescNoDup]
  | cons y ys ih =>
    unfold insertDescNoDup
    by_cases h1 : (x == y) = true
    · have hxy : x = y := eq_of_beq h1
      subst hxy
      rw [if_pos h1]
      simp [List.mem_cons]
    · rw [if_neg h1]
      by_cases h2 : x < y
      · rw [if_pos h2]
        simp only [List.mem_cons, ih]
        tauto
      · rw [if_neg h2]
        simp [List.mem_cons]

theorem insertDescNoDup_pairwise (x : ℤ) (l : List ℤ)
    (h : l.Pairwise (fun a b => b < a)) :
    (insertDescNoDup x l).Pairwise (fun a b => b < a) := by
  induction l with
  | nil => simp [insertDescNoDup]
  | cons y ys ih =>
    unfold insertDescNoDup
    rcases List.pairwise_cons.mp h with ⟨hy, hys⟩
    by_cases h1 : (x == y) = true
    · rw [if_pos h1]
      exact h
    · have hne : x ≠ y := by
        intro he
        subst he
        simp at h1
      rw [if_neg h1]
      by_cases h2 : x < y
      · rw [if_pos h2]
        refine List.pairwise_cons.mpr ⟨?_, ih hys⟩
        intro b hb
        rcases (insertDescNoDup_mem x b ys).mp hb with rfl | hbys
        · exact h2
        · exact hy b hbys
      · rw [if_neg h2]
        have hyx : y < x := lt_of_le_of_ne (not_lt.mp h2) (fun he => hne he.symm)
        refine List.pairwise_cons.mpr ⟨?_, h⟩
        intro b hb
        rcases List.mem_cons.mp hb with rfl | hbys
        · exact hyx
        · exact lt_trans (hy b hbys) hyx

theorem dedupSortDesc_spec (l : List ℤ) :
    (∀ a, a ∈ dedupSortDesc l ↔ a ∈ l)
    ∧ (dedupSortDesc l).Pairwise (fun a b => b < a) := by
  have main : ∀ (l acc : List ℤ), acc.Pairwise (fun a b => b < a) →
      (∀ a, a ∈ l.foldl (fun acc x => insertDescNoDup x acc) acc ↔ a ∈ acc ∨ a ∈ l)
      ∧ (l.foldl (fun acc x => insertDescNoDup x acc) acc).Pairwise
          (fun a b => b < a) := by
    intro l
    induction l with
    | nil =>
      intro acc hacc
      exact ⟨fun a => by simp, hacc⟩
    | cons x xs ih =>
      intro acc hacc
      rw [List.foldl_cons]
      obtain ⟨hmem, hpw⟩ := ih (insertDescNoDup x acc) (insertDescNoDup_pairwise x acc hacc)
      refine ⟨fun a => ?_, hpw⟩
      rw [hmem a, insertDescNoDup_mem]
      simp [List.mem_cons]
      tauto
  obtain ⟨hmem, hpw⟩ := main l [] List.Pairwise.nil
  exact ⟨fun a => by simpa using hmem a, hpw⟩

theorem consecutiveDiffs_length (x : ℤ) (xs : List ℤ) :
    (consecutiveDiffs (x :: xs)).length = xs.length := by
  induction xs generalizing x with
  | nil => rfl
  | cons y rest ih =>
    show ((x - y) :: consecutiveDiffs (y :: rest)).length = (y :: rest).length
    simp [ih y]

theorem consecutiveDiffs_sum (x : ℤ) (xs : List ℤ) :
    (consecutiveDiffs (x :: xs)).sum = x - ((x :: xs).getLast?.getD 0) := by
  induction xs generalizing x with
  | nil => simp [consecutiveDiffs]
  | cons y rest ih =>
    show ((x - y) :: consecutiveDiffs (y :: rest)).sum = _
    rw [List.sum_cons, ih y, List.getLast?_cons_cons]
    ring

theorem pairwise_head_max {x : ℤ} {xs : List ℤ}
    (h : (x :: xs).Pairwise (fun a b => b < a)) :
    ∀ d ∈ x :: xs, d ≤ x := by
  intro d hd
  rcases List.mem_cons.mp hd with rfl | hdx
  · exact le_refl d
  · exact le_of_lt ((List.pairwise_cons.mp h).1 d hdx)

theorem pairwise_last_lt_head {x : ℤ} {xs : List ℤ} (hne : xs ≠ [])
    (h : (x :: xs).Pairwise (fun a b => b < a)) :
    (x :: xs).getLast?.getD 0 < x := by
  have hlast_mem : xs.getLast?.getD 0 ∈ xs := by
    rw [List.getLast?_eq_getLast xs hne]
    exact List.getLast_mem hne
  have hxlast : (x :: xs).getLast? = xs.getLast? := by
    cases xs with
    | nil => exact absurd rfl hne
    | cons y rest => exact List.getLast?_cons_cons
  rw [hxlast]
  exact (List.pairwise_cons.mp h).1 _ hlast_mem

theorem cast_sum_list (l : List ℤ) :
    (l.map (fun d : ℤ => (d : ℚ))).sum = ((l.sum : ℤ) : ℚ) := by
  induction l with
  | nil => simp
  | cons x xs ih =>
    rw [List.map_cons, List.sum_cons, ih, List.sum_cons, Int.cast_add]

/-- Characterization of the per-group pattern: `purchase_dates` is the
strictly descending deduplication of the group's dates; `frequency` counts
the distinct dates; `last_purchase_date` is the most recent one;
`avg_days_between` exists exactly for at least two distinct dates and equals
the telescoped mean `(newest - oldest) / (distinct - 1)`, rounded to one
decimal. -/
theorem mkPatternData_spec (dates : List ℤ) :
    (mkPatternData dates).purchase_dates = dedupSortDesc dates
    ∧ (∀ a, a ∈ (mkPatternData dates).purchase_dates ↔ a ∈ dates)
    ∧ (mkPatternData dates).purchase_dates.Pairwise (fun a b => b < a)
    ∧ (mkPatternData dates).frequency = (mkPatternData dates).purchase_dates.length
    ∧ (mkPatternData dates).last_purchase_date = (mkPatternData dates).purchase_dates.head?
    ∧ (∀ d ∈ (mkPatternData dates).purchase_dates,
        d ≤ (mkPatternData dates).purchase_dates.head?.getD d)
    ∧ ((mkPatternData dates).purchase_dates.length < 2 →
        (mkPatternData dates).avg_days_between = none)
    ∧ (2 ≤ (mkPatternData dates).purchase_dates.length →
        (mkPatternData dates).avg_days_between
          = some (round1 ((((mkPatternData dates).purchase_dates.head?.getD 0
              - (mkPatternData dates).purchase_dates.getLast?.getD 0 : ℤ) : ℚ)
              / (((mkPatternData dates).purchase_dates.length - 1 : ℕ) : ℚ)))) := by
  obtain ⟨hmem, hpw⟩ := dedupSortDesc_spec dates
  have hpd : (mkPatternData dates).purchase_dates = dedupSortDesc dates := rfl
  have havg : (mkPatternData dates).avg_days_between
      = (if (consecutiveDiffs (dedupSortDesc dates)).isEmpty = true then none
         else if ((consecutiveDiffs (dedupSortDesc dates)).map (fun d : ℤ => (d : ℚ))).sum
             / ((consecutiveDiffs (dedupSortDesc dates)).length : ℚ) = 0 then none
         else some (round1 (((consecutiveDiffs (dedupSortDesc dates)).map
             (fun d : ℤ => (d : ℚ))).sum
             / ((consecutiveDiffs (dedupSortDesc dates)).length : ℚ)))) := rfl
  refine ⟨rfl, fun a => by rw [hpd]; exact hmem a, by rw [hpd]; exact hpw, rfl, rfl,
    ?_, ?_, ?_⟩
  · intro d hd
    rw [hpd] at hd ⊢
    rcases hu : dedupSortDesc dates with _ | ⟨x, xs⟩
    · rw [hu] at hd
      cases hd
    · rw [hu] at hd
      have hpw2 : (x :: xs).Pairwise (fun a b => b < a) := hu ▸ hpw
      simpa using pairwise_head_max hpw2 d hd
  · intro hlen
    rw [hpd] at hlen
    rw [havg]
    rcases hu : dedupSortDesc dates with _ | ⟨x, _ | ⟨y, rest⟩⟩
    · rfl
    · rfl
    · rw [hu] at hlen
      simp at hlen
      omega
  · intro hlen
    rw [hpd] at hlen
    rcases hu : dedupSortDesc dates with _ | ⟨x, _ | ⟨y, rest⟩⟩
    · rw [hu] at hlen
      simp at hlen
    · rw [hu] at hlen
      simp at hlen
    · have hpw2 : (x :: y :: rest).Pairwise (fun a b => b < a) := hu ▸ hpw
      have hlast : (x :: y :: rest).getLast?.getD 0 < x :=
        pairwise_last_lt_head (by simp) hpw2
      have hsum : (consecutiveDiffs (x :: y :: rest)).sum
          = x - ((x :: y :: rest).getLast?.getD 0) := consecutiveDiffs_sum x (y :: rest)
      have hlen' : (consecutiveDiffs (x :: y :: rest)).length = (y :: rest).length :=
        consecutiveDiffs_length x (y :: rest)
      have hane : ¬(((consecutiveDiffs (x :: y :: rest)).map (fun d : ℤ => (d : ℚ))).sum
          / ((consecutiveDiffs (x :: y :: rest)).length : ℚ) = 0) := by
        apply ne_of_gt
        apply div_pos
        · rw [cast_sum_list, hsum]
          have : (0 : ℤ) < x - ((x :: y :: rest).getLast?.getD 0) := by omega
          exact_mod_cast this
        · rw [hlen']
          have : (0 : ℕ) < (y :: rest).length := by simp
          exact_mod_cast this
      have hnee : (consecutiveDiffs (x :: y :: rest)).isEmpty = false := rfl
      rw [havg, hu, hnee]
      simp only [Bool.false_eq_true, if_false, hane, if_neg, not_false_iff]
      congr 1
      congr 1
      rw [cast_sum_list, hsum, hlen', hpd, hu]
      have h1 : ((x :: y :: rest).head?.getD 0) = x := rfl
      have h2 : ((x :: y :: rest).length - 1 : ℕ) = (y :: rest).length := by
        simp
      rw [h1, h2]

/-- The spec's end-to-end scenario, in day ordinals: Milk bought on
2024-01-01 (day 0), 2024-01-08 (day 7), 2024-01-15 (day 14); "today" is
2024-01-21 (day 20). -/
def milkItems : List ReceiptItem :=
  [⟨"Milk", some 0⟩, ⟨"Milk", some 7⟩, ⟨"Milk", some 14⟩]

/-- A frequency-3 pattern with no average interval (single-delta groups can
legitimately carry `none`); ranks above any frequency-2 item. -/
def blockerPattern : PatternData := ⟨3, some 100, none, [100, 99, 98]⟩

def milkPattern : PatternData := ⟨2, some 14, some 7, [14, 7]⟩

/-- 30 higher-ranked items followed by Milk: Milk ranks 31st. -/
def bigPatterns : List (String × PatternData) :=
  ((List.range 30).map (fun i => (("item" ++ toString i : String), blockerPattern)))
    ++ [("Milk", milkPattern)]

/-- C7 (counterexample): the derived prompt lists only the 30 items ranked
highest by `(frequency, recency)` (`sorted_items[:30]`); an item that
satisfies the days-since ≥ 0.8 × avg condition but ranks 31st is never
marked.  Here Milk (6 days since last purchase, average 7, 6 ≥ 5.6) is
crowded out by 30 frequency-3 items and the prompt marks nothing. -/
theorem likely_needs_soon_top30_counterexample :
    likely_needs_soon 20 milkPattern = true
    ∧ ("Milk", milkPattern) ∈ bigPatterns
    ∧ bigPatterns.length = 31
    ∧ markedItems bigPatterns 20 = [] := by
  refine ⟨?_, ?_, ?_, ?_⟩
  · show (if (7 : ℚ) = 0 then false
        else decide ((7 : ℚ) * (4 / 5) ≤ ((20 - 14 : ℤ) : ℚ))) = true
    rw [if_neg (by norm_num), decide_eq_true_eq]
    norm_num
  · simp [bigPatterns]
  · rfl
  · rfl

/-- C7 (amended): the pattern aggregator groups items by stripped normalized
name and reports, per group, frequency = the number of distinct purchase
dates, last_purchase_date = the most recent distinct date, and
avg_days_between = the mean of day-deltas between consecutive sorted dates
(equivalently `(newest − oldest)/(distinct − 1)`, rounded to one decimal),
omitted when the group has fewer than two distinct dates; and the derived
prompt — which lists only the 30 items ranked highest by (frequency,
recency) — marks an item "likely needs soon" exactly when it is among those
30 and days since last purchase ≥ 0.8 × avg_days_between (with
avg_days_between present and nonzero); in particular Milk bought on
2024-01-01, 2024-01-08 and 2024-01-15 is marked on 2024-01-21. -/
theorem aggregate_purchase_patterns_characterization
    (items : List ReceiptItem) (current_date : ℤ) :
    aggregate_purchase_patterns items
      = (item_groups items).map (fun g => (g.1, mkPatternData g.2))
    ∧ (∀ g ∈ item_groups items,
        (∀ a, a ∈ (mkPatternData g.2).purchase_dates ↔ a ∈ g.2)
        ∧ (mkPatternData g.2).purchase_dates.Pairwise (fun a b => b < a)
        ∧ (mkPatternData g.2).frequency = (mkPatternData g.2).purchase_dates.length
        ∧ (mkPatternData g.2).last_purchase_date
            = (mkPatternData g.2).purchase_dates.head?
        ∧ ((mkPatternData g.2).purchase_dates.length < 2 →
            (mkPatternData g.2).avg_days_between = none)
        ∧ (2 ≤ (mkPatternData g.2).purchase_dates.length →
            (mkPatternData g.2).avg_days_between
              = some (round1 ((((mkPatternData g.2).purchase_dates.head?.getD 0
                  - (mkPatternData g.2).purchase_dates.getLast?.getD 0 : ℤ) : ℚ)
                  / (((mkPatternData g.2).purchase_dates.length - 1 : ℕ) : ℚ)))))
    ∧ (∀ p : PatternData, likely_needs_soon current_date p = true
        ↔ ∃ last avg, p.last_purchase_date = some last
            ∧ p.avg_days_between = some avg ∧ avg ≠ 0
            ∧ avg * (4 / 5) ≤ ((current_date - last : ℤ) : ℚ))
    ∧ (∀ (pats : List (String × PatternData)) (n : String),
        n ∈ markedItems pats current_date
          ↔ ∃ q ∈ (sortPatternsDesc pats).take 30,
              q.1 = n ∧ likely_needs_soon current_date q.2 = true)
    ∧ markedItems (aggregate_purchase_patterns milkItems) 20 = ["Milk"] := by
  refine ⟨rfl, ?_, ?_, ?_, ?_⟩
  · intro g _
    obtain ⟨_, h2, h3, h4, h5, _, h7, h8⟩ := mkPatternData_spec g.2
    exact ⟨h2, h3, h4, h5, h7, h8⟩
  · intro p
    rcases hl : p.last_purchase_date with _ | last
    · unfold likely_needs_soon
      rw [hl]
      rcases ha : p.avg_days_between with _ | avg <;> simp
    · rcases ha : p.avg_days_between with _ | avg
      · unfold likely_needs_soon
        rw [hl, ha]
        simp
      · unfold likely_needs_soon
        rw [hl, ha]
        show (if avg = 0 then false
            else decide (avg * (4 / 5) ≤ ((current_date - last : ℤ) : ℚ))) = true ↔ _
        by_cases h0 : avg = 0
        · simp [h0]
        · rw [if_neg h0]
          simp only [decide_eq_true_eq, Option.some.injEq]
          constructor
          · intro hc
            exact ⟨last, avg, rfl, rfl, h0, hc⟩
          · rintro ⟨last', avg', hl', ha', h0', hc⟩
            subst hl'
            subst ha'
            exact hc
  · intro pats n
    unfold markedItems
    rw [List.mem_filterMap]
    constructor
    · rintro ⟨q, hq, hf⟩
      by_cases h : likely_needs_soon current_date q.2 = true
      · rw [if_pos h] at hf
        exact ⟨q, hq, Option.some.inj hf, h⟩
      · rw [if_neg h] at hf
        cases hf
    · rintro ⟨q, hq, hqn, hlik⟩
      exact ⟨q, hq, by rw [if_pos hlik, hqn]⟩
  · have hg : item_groups milkItems = [("Milk", [0, 7, 14])] := rfl
    have hd : dedupSortDesc [0, 7, 14] = [14, 7, 0] := rfl
    have hdiff : consecutiveDiffs [14, 7, 0] = [7, 7] := rfl
    have hmean : (([7, 7] : List ℤ).map (fun d : ℤ => (d : ℚ))).sum
        / ((([7, 7] : List ℤ).length : ℕ) : ℚ) = 7 := by norm_num
    have hpat : mkPatternData [0, 7, 14] = ⟨3, some 14, some 7, [14, 7, 0]⟩ := by
      norm_num [mkPatternData, hd, hdiff, round1, roundHalfEven]
    have hagg : aggregate_purchase_patterns milkItems
        = [("Milk", mkPatternData [0, 7, 14])] := by
      unfold aggregate_purchase_patterns
      rw [hg]
      rfl
    have hlik : likely_needs_soon 20 (mkPatternData [0, 7, 14]) = true := by
      rw [hpat]
      show (if (7 : ℚ) = 0 then false
          else decide ((7 : ℚ) * (4 / 5) ≤ ((20 - 14 : ℤ) : ℚ))) = true
      rw [if_neg (by norm_num), decide_eq_true_eq]
      norm_num
    rw [hagg]
    have hs : sortPatternsDesc [("Milk", mkPatternData [0, 7, 14])]
        = [("Milk", mkPatternData [0, 7, 14])] := rfl
    unfold markedItems
    rw [hs]
    simp [hlik]

/-- C7 witness: the Milk group has three distinct dates, so its average
interval is present and telescopes to (14 − 0)/2 = 7 days. -/
theorem aggregate_purchase_patterns_characterization_witness :
    ("Milk", ([0, 7, 14] : List ℤ)) ∈ item_groups milkItems
    ∧ 2 ≤ (mkPatternData [(0 : ℤ), 7, 14]).purchase_dates.length
    ∧ (mkPatternData [(0 : ℤ), 7, 14]).avg_days_between
        = some (round1 ((((mkPatternData [(0 : ℤ), 7, 14]).purchase_dates.head?.getD 0
            - (mkPatternData [(0 : ℤ), 7, 14]).purchase_dates.getLast?.getD 0 : ℤ) : ℚ)
            / (((mkPatternData [(0 : ℤ), 7, 14]).purchase_dates.length - 1 : ℕ) : ℚ))) :=
  ⟨by decide, by decide,
   ((aggregate_purchase_patterns_characterization milkItems 20).2.1
      ("Milk", [0, 7, 14]) (by decide)).2.2.2.2.2 (by decide)⟩

/-! ### Webhook idempotency — `src/handlers/webhook_handler.py`

Timestamps are integer seconds; the in-memory cache is the insertion-ordered
list of `(message_id, timestamp)` pairs. -/

/-- One entry of `value.messages`. -/
structure WaMessage where
  id : Option String
  msg_type : String
  text_body : String
deriving Repr, DecidableEq

/-- `changes[0].value`; only the presence of statuses/contacts matters. -/
structure WaValue where
  statuses : List Unit
  contacts : List Unit
  messages : List WaMessage
deriving Repr, DecidableEq

structure WaChange where
  value : WaValue
deriving Repr, DecidableEq

structure WaEntry where
  changes : List WaChange
deriving Repr, DecidableEq

structure WebhookData where
  entry : List WaEntry
deriving Repr, DecidableEq

/-- `_cleanup_old_messages` (lines 24-34): drop entries strictly older than
24 hours (86400 s). -/
def cleanup_old_messages (now : ℤ) (cache : List (String × ℤ)) : List (String × ℤ) :=
  cache.filter (fun e => decide (now - e.2 ≤ 86400))

/-- `_is_message_processed` (lines 36-40). -/
def is_message_processed (cache : List (String × ℤ)) (message_id : String) : Bool :=
  (cache.find? (fun e => e.1 == message_id)).isSome

/-- `_mark_message_processed` (lines 42-47): record the id with the current
time, then run the periodic cleanup when the cache size is a multiple of
100. -/
def mark_message_processed (now : ℤ) (cache : List (String × ℤ)) (message_id : String) :
    List (String × ℤ) :=
  let c := cache ++ [(message_id, now)]
  if c.length % 100 == 0 then cleanup_old_messages now c else c

/-- The observable outcome of one `process_incoming_message` call.  The bool
the Python function returns is `true` exactly for `processedText`; a
`processedText` outcome is the single dispatch to a text handler (the side
effect). -/
inductive ProcessOutcome where
  | ignoredNoEntry
  | ignoredNoChanges
  | ignoredStatusUpdate
  | ignoredContactUpdate
  | ignoredNoMessages
  | ignoredNoMessageId
  | ignoredDuplicate
  | ignoredUnsupportedType (t : String)
  | imageTypeError
  | processedText (body : String)
deriving Repr, DecidableEq

/-- `process_incoming_message` (lines 49-177).  For image messages the code
deliberately does not mark the id ("let image handler do it"), and the call
`handle_receipt_image(sender_phone, message, message_id)` passes three
arguments to a two-parameter function, raising `TypeError`, which the
`except (KeyError, IndexError, TypeError)` clause turns into `False` —
no side effect and no cache change. -/
def process_incoming_message (now : ℤ) (cache : List (String × ℤ)) (w : WebhookData) :
    ProcessOutcome × List (String × ℤ) :=
  match w.entry with
  | [] => (.ignoredNoEntry, cache)
  | e :: _ =>
    match e.changes with
    | [] => (.ignoredNoChanges, cache)
    | ch :: _ =>
      let v := ch.value
      if !v.statuses.isEmpty then (.ignoredStatusUpdate, cache)
      else if !v.contacts.isEmpty && v.messages.isEmpty then (.ignoredContactUpdate, cache)
      else match v.messages with
      | [] => (.ignoredNoMessages, cache)
      | msg :: _ =>
        match msg.id with
        | none => (.ignoredNoMessageId, cache)
        | some mid =>
          if mid == "" then (.ignoredNoMessageId, cache)
          else if is_message_processed cache mid then (.ignoredDuplicate, cache)
          else if msg.msg_type != "text" then
            if msg.msg_type == "image" then (.imageTypeError, cache)
            else (.ignoredUnsupportedType msg.msg_type, cache)
          else
            (.processedText (pyStrip (pyLower msg.text_body)),
             mark_message_processed now cache mid)

/-- The message id of a payload that reaches the text-processing branch
(all envelope guards pass and the first message is a text message with a
non-empty id). -/
def firstTextMsgId (w : WebhookData) : Option String :=
  match w.entry with
  | [] => none
  | e :: _ =>
    match e.changes with
    | [] => none
    | ch :: _ =>
      let v := ch.value
      if !v.statuses.isEmpty then none
      else if !v.contacts.isEmpty && v.messages.isEmpty then none
      else match v.messages with
      | [] => none
      | msg :: _ =>
        match msg.id with
        | none => none
        | some mid =>
          if mid == "" then none
          else if msg.msg_type != "text" then none
          else some mid

def isProcessedText : ProcessOutcome → Bool
  | .processedText _ => true
  | _ => false

/-- Repeated deliveries of the same webhook payload: outcome trace. -/
def processAll (w : WebhookData) : List ℤ → List (String × ℤ) → List ProcessOutcome
  | [], _ => []
  | t :: ts, cache =>
    (process_incoming_message t cache w).1
      :: processAll w ts (process_incoming_message t cache w).2

theorem cleanup_mem (now : ℤ) (cache : List (String × ℤ)) (e : String × ℤ) :
    e ∈ cleanup_old_messages now cache ↔ e ∈ cache ∧ now - e.2 ≤ 86400 := by
  simp [cleanup_old_messages, List.mem_filter]

theorem mark_keeps_mid (now : ℤ) (cache : List (String × ℤ)) (mid : String) :
    is_message_processed (mark_message_processed now cache mid) mid = true := by
  unfold mark_message_processed
  by_cases h : (((cache ++ [(mid, now)]).length % 100 == 0) = true)
  · rw [if_pos h]
    unfold is_message_processed cleanup_old_messages
    rw [List.find?_isSome]
    refine ⟨(mid, now), ?_, by simp⟩
    rw [List.mem_filter]
    constructor
    · simp
    · simp
  · rw [if_neg h]
    unfold is_message_processed
    rw [List.find?_isSome]
    exact ⟨(mid, now), by simp, by simp⟩

/-- One step of `process_incoming_message` on a well-formed text payload:
a cached id is rejected as a duplicate (no state change); a fresh id is
dispatched exactly once and marked. -/
theorem process_text_step (now : ℤ) (cache : List (String × ℤ)) (w : WebhookData)
    (mid : String) (hid : firstTextMsgId w = some mid) :
    (is_message_processed cache mid = true →
        process_incoming_message now cache w = (.ignoredDuplicate, cache))
    ∧ (is_message_processed cache mid = false →
        ∃ b, process_incoming_message now cache w
          = (.processedText b, mark_message_processed now cache mid)) := by
  obtain ⟨entry⟩ := w
  rcases entry with _ | ⟨⟨changes⟩, erest⟩
  · simp [firstTextMsgId] at hid
  rcases changes with _ | ⟨⟨⟨statuses, contacts, messages⟩⟩, crest⟩
  · simp [firstTextMsgId] at hid
  cases hstat : statuses.isEmpty with
  | false => simp [firstTextMsgId, hstat] at hid
  | true =>
    cases messages with
    | nil =>
      cases hcont : contacts.isEmpty <;> simp [firstTextMsgId, hstat, hcont] at hid
    | cons msg mrest =>
      obtain ⟨mi, mt, mb⟩ := msg
      rcases mi with _ | mid0
      · simp [firstTextMsgId, hstat] at hid
      by_cases hmid0 : (mid0 == "") = true
      · simp [firstTextMsgId, hstat, hmid0] at hid
      by_cases htype : (mt != "text") = true
      · simp [firstTextMsgId, hstat, hmid0, htype] at hid
      have hmid : mid0 = mid := by
        simp [firstTextMsgId, hstat, hmid0, htype] at hid
        exact hid
      subst hmid
      constructor
      · intro hdup
        simp [process_incoming_message, hstat, hmid0, htype, hdup]
      · intro hnew
        refine ⟨pyStrip (pyLower mb), ?_⟩
        simp [process_incoming_message, hstat, hmid0, htype, hnew]

/-- Once the id is cached, redeliveries of the same payload never dispatch. -/
theorem processAll_no_side_effects (w : WebhookData) (mid : String)
    (hid : firstTextMsgId w = some mid) :
    ∀ (ts : List ℤ) (cache : List (String × ℤ)),
      is_message_processed cache mid = true →
      ((processAll w ts cache).filter isProcessedText).length = 0 := by
  intro ts
  induction ts with
  | nil => intro cache _; rfl
  | cons t ts ih =>
    intro cache hdup
    have hstep := (process_text_step t cache w mid hid).1 hdup
    unfold processAll
    rw [hstep]
    simp only [isProcessedText, List.filter_cons]
    simp only [Bool.false_eq_true, if_false]
    exact ih cache hdup

theorem processAll_at_most_one (w : WebhookData) (mid : String)
    (hid : firstTextMsgId w = some mid) :
    ∀ (ts : List ℤ) (cache : List (String × ℤ)),
      ((processAll w ts cache).filter isProcessedText).length ≤ 1 := by
  intro ts
  induction ts with
  | nil => intro cache; simp [processAll]
  | cons t ts ih =>
    intro cache
    by_cases hdup : is_message_processed cache mid = true
    · have hstep := (process_text_step t cache w mid hid).1 hdup
      unfold processAll
      rw [hstep]
      simp only [isProcessedText, List.filter_cons, Bool.false_eq_true, if_false]
      exact ih cache
    · have hnew : is_message_processed cache mid = false := by
        cases hbb : is_message_processed cache mid
        · rfl
        · exact absurd hbb hdup
      obtain ⟨b, hstep⟩ := (process_text_step t cache w mid hid).2 hnew
      unfold processAll
      rw [hstep]
      have hmarked := mark_keeps_mid t cache mid
      have hz := processAll_no_side_effects w mid hid ts
        (mark_message_processed t cache mid) hmarked
      simp only [isProcessedText, List.filter_cons, if_true, List.length_cons, hz]
      omega

/-- The webhook payload of an image message. -/
def imageWebhook : WebhookData :=
  ⟨[⟨[⟨⟨[], [], [⟨some "wamid.IMG1", "image", ""⟩]⟩⟩]⟩]⟩

/-- A text-message webhook payload. -/
def textWebhook : WebhookData :=
  ⟨[⟨[⟨⟨[], [], [⟨some "wamid.TXT1", "text", "Hi"⟩]⟩⟩]⟩]⟩

/-- C8 (counterexample): an image message is never entered into the
idempotency cache by `process_incoming_message` (the code defers marking to
the image handler, and the mis-aritied `handle_receipt_image` call raises
`TypeError` first), so delivering the same image `message_id` a second time
is NOT rejected as a duplicate — both deliveries take the `TypeError` path
with an unchanged cache. -/
theorem duplicate_image_not_rejected :
    (process_incoming_message 0 [] imageWebhook).1 = .imageTypeError
    ∧ (process_incoming_message 0 [] imageWebhook).2 = []
    ∧ (process_incoming_message 1
        (process_incoming_message 0 [] imageWebhook).2 imageWebhook).1
        = .imageTypeError
    ∧ (process_incoming_message 1
        (process_incoming_message 0 [] imageWebhook).2 imageWebhook).1
        ≠ .ignoredDuplicate := by
  exact ⟨rfl, rfl, rfl, by decide⟩

/-- C8 (amended): for text messages, processing the same `message_id` a
second time through `process_incoming_message` is rejected as a duplicate,
so for every text `message_id` at most one side effect is produced no matter
how many times the event is delivered (image messages are not entered in the
cache by this function — their deduplication is deferred to the image
handler's media-id check, and the mis-aritied image call produces no side
effect at all); and after a cleanup pass of the idempotency cache, every
cache entry older than 24 hours is absent. -/
theorem process_incoming_message_idempotency :
    (∀ (now : ℤ) (cache : List (String × ℤ)) (w : WebhookData) (mid : String),
        firstTextMsgId w = some mid →
        (is_message_processed cache mid = true →
            process_incoming_message now cache w = (.ignoredDuplicate, cache))
        ∧ (is_message_processed cache mid = false →
            ∃ b, process_incoming_message now cache w
              = (.processedText b, mark_message_processed now cache mid)))
    ∧ (∀ (w : WebhookData) (mid : String), firstTextMsgId w = some mid →
        ∀ (ts : List ℤ) (cache : List (String × ℤ)),
          ((processAll w ts cache).filter isProcessedText).length ≤ 1)
    ∧ (∀ (now : ℤ) (cache : List (String × ℤ)) (e : String × ℤ),
        e ∈ cleanup_old_messages now cache ↔ e ∈ cache ∧ now - e.2 ≤ 86400) :=
  ⟨fun now cache w mid hid => process_text_step now cache w mid hid,
   fun w mid hid ts cache => processAll_at_most_one w mid hid ts cache,
   cleanup_mem⟩

/-- C8 witness: a concrete text message already in the cache is rejected as
a duplicate. -/
theorem process_incoming_message_idempotency_witness :
    firstTextMsgId textWebhook = some "wamid.TXT1"
    ∧ is_message_processed [("wamid.TXT1", 0)] "wamid.TXT1" = true
    ∧ process_incoming_message 5 [("wamid.TXT1", 0)] textWebhook
        = (.ignoredDuplicate, [("wamid.TXT1", 0)]) :=
  ⟨rfl, rfl,
   ((process_incoming_message_idempotency.1 5 [("wamid.TXT1", 0)] textWebhook
      "wamid.TXT1" rfl).1 rfl)⟩

end RecipeBot
